import Mathlib

/-!
Verification development for the drreg register-management extension
(`ext/drreg/drreg.c`, x86-64 build: `X86`, `X86_64` and `SIMD_SUPPORTED`
are defined, `dr_get_stolen_reg()` is `DR_REG_NULL`).

The development shallowly embeds the data model and the routines of the
source file that the checked claims are about:

* the Slot Pool (`find_free_slot`, `find_simd_free_slot`),
* the block-mode liveness analysis (`drreg_event_bb_analysis`),
* the forward liveness analysis (`drreg_forward_analysis`),
* the GPR reservation path (`drreg_reserve_gpr_internal` together with
  `drreg_move_aflags_from_reg`, `drreg_restore_aflags`,
  `drreg_spill_aflags`, `drreg_reserve_aflags`,
  `drreg_unreserve_register`, `drreg_restore_reg_now`),
* the fault-time walk bookkeeping of `drreg_event_restore_state`,
* the option combination of `drreg_init` / `get_updated_num_slots`,
* `drreg_set_bb_properties`.

Host-runtime primitives (instruction predicates, operand iteration,
code-emission helpers) are abstracted: an instruction is a record of the
predicate results the source queries, and emitted code is a list of
abstract spill/restore/flag instructions.  Mutually recursive C call
chains (reservation can evict aflags, which can restore aflags, which can
reserve a register) are embedded with an explicit fuel parameter; the
actual call depth in the source is bounded by a small constant, so any
sufficiently large fuel gives the exact semantics.
-/

/-- Status codes of the drreg API (`drreg_status_t`). -/
inductive DrregStatus where
  | success
  | error
  | invalidParameter
  | featureNotAvailable
  | regConflict
  | outOfSlots
  | noAppValue
  | inUse
  deriving DecidableEq, Repr

/-- drmgr basic-block instrumentation phases (`drmgr_bb_phase_t`).  The
constructors are pairwise distinct, as are the C enum values. -/
inductive DrPhase where
  | noPhase
  | app2app
  | analysis
  | insertion
  | instru2instru
  deriving DecidableEq, Repr

/-- Number of general-purpose registers on x86-64 (`DR_NUM_GPR_REGS`). -/
def DR_NUM_GPR_REGS : Nat := 16

/-- Number of SIMD vector registers on x86-64 (`DR_NUM_SIMD_VECTOR_REGS`). -/
def DR_NUM_SIMD_VECTOR_REGS : Nat := 32

/-- A GPR, indexed from `DR_REG_START_GPR`; index 0 is `DR_REG_XAX`. -/
abbrev GprIdx := Fin 16

/-- A SIMD register, indexed from `DR_REG_APPLICABLE_START_SIMD` (zmm0). -/
abbrev SimdIdx := Fin 32

/-- Index of `DR_REG_XAX` among the GPRs. -/
def XAX_IDX : GprIdx := 0

/-- Index of `DR_REG_XSP` among the GPRs (xax, xcx, xdx, xbx, then xsp). -/
def XSP_IDX : GprIdx := 4

/-- `SPILL_SLOT_MAX` of the host (x86-64), as a 0-based count bound. -/
def SPILL_SLOT_MAX : Nat := 16

/-- `MAX_SPILLS = ARBITRARY_UPPER_LIMIT = SPILL_SLOT_MAX + DR_NUM_GPR_REGS + 1`. -/
def MAX_SPILLS : Nat := SPILL_SLOT_MAX + DR_NUM_GPR_REGS + 1

/-- `MAX_SIMD_SPILLS = DR_NUM_SIMD_VECTOR_REGS * 2`. -/
def MAX_SIMD_SPILLS : Nat := DR_NUM_SIMD_VECTOR_REGS * 2

/-- `AFLAGS_SLOT`: GPR spill slot index permanently reserved for aflags. -/
def AFLAGS_SLOT : Nat := 0

/-- GPR liveness value `REG_DEAD` (the source stores these sentinels as
pointer-sized integers in the live vectors; we keep the numeric codes). -/
def REG_DEAD : Nat := 0

/-- GPR liveness value `REG_LIVE`. -/
def REG_LIVE : Nat := 1

/-- GPR liveness value `REG_UNKNOWN` (only used outside the insert phase). -/
def REG_UNKNOWN : Nat := 2

/-- SIMD liveness value `SIMD_XMM_DEAD`. -/
def SIMD_XMM_DEAD : Nat := 0

/-- SIMD liveness value `SIMD_YMM_DEAD`. -/
def SIMD_YMM_DEAD : Nat := 1

/-- SIMD liveness value `SIMD_ZMM_DEAD`. -/
def SIMD_ZMM_DEAD : Nat := 2

/-- SIMD liveness value `SIMD_XMM_LIVE`. -/
def SIMD_XMM_LIVE : Nat := 3

/-- SIMD liveness value `SIMD_YMM_LIVE`. -/
def SIMD_YMM_LIVE : Nat := 4

/-- SIMD liveness value `SIMD_ZMM_LIVE`. -/
def SIMD_ZMM_LIVE : Nat := 5

/-- SIMD liveness value `SIMD_UNKNOWN`. -/
def SIMD_UNKNOWN : Nat := 6

/-- The six arithmetic-flag read bits (`EFLAGS_READ_ARITH`).  We place the
read bits in bit positions 0-5 and the write bits in positions 6-11; the
source's masks are isomorphic to this layout and no claim depends on the
concrete bit values. -/
def EFLAGS_READ_ARITH : Nat := 63

/-- The six arithmetic-flag write bits (`EFLAGS_WRITE_ARITH`). -/
def EFLAGS_WRITE_ARITH : Nat := 63 <<< 6

/-- All arithmetic-flag bits, read and write. -/
def EFLAGS_ARITH_ALL : Nat := EFLAGS_READ_ARITH ||| EFLAGS_WRITE_ARITH

/-- The read bit of the overflow flag (`EFLAGS_READ_OF`). -/
def EFLAGS_READ_OF : Nat := 32

/-- `EFLAGS_WRITE_TO_READ`: map write bits to the matching read bits. -/
def EFLAGS_WRITE_TO_READ (x : Nat) : Nat := (x &&& EFLAGS_WRITE_ARITH) >>> 6

/-- `EFLAGS_READ_TO_WRITE`: map read bits to the matching write bits. -/
def EFLAGS_READ_TO_WRITE (x : Nat) : Nat := (x &&& EFLAGS_READ_ARITH) <<< 6

/-- `x & ~y` on arithmetic-flag masks (both operands live inside the
12-bit arithmetic-flag universe, so complement relative to it is exact). -/
def maskAndNot (x y : Nat) : Nat := x &&& (EFLAGS_ARITH_ALL ^^^ (y &&& EFLAGS_ARITH_ALL))

/-- `TESTANY(mask, x)` of the source. -/
def testAny (mask x : Nat) : Bool := decide ((x &&& mask) ≠ 0)

/-- An instruction, abstracted to the host-runtime predicate results the
drreg source queries on it.  Per-register predicates are indexed by the
register; the SIMD predicates are indexed by the zmm number and carry the
width the source asks about (`reg_resize_to_opsz` of the same register). -/
structure Inst where
  /-- `instr_reads_from_reg(inst, reg, DR_QUERY_INCLUDE_COND_SRCS)`,
  including reads as an addressing-mode base or index. -/
  readsReg : GprIdx → Bool
  /-- `instr_writes_to_exact_reg(inst, reg, DR_QUERY_INCLUDE_COND_SRCS)`
  for the full-width register. -/
  writesExact : GprIdx → Bool
  /-- `instr_writes_to_exact_reg(inst, reg_64_to_32(reg), ...)`: an exact
  write to the 32-bit alias, which zeroes the upper half on x86-64. -/
  writesExact32 : GprIdx → Bool
  /-- `instr_is_cti(inst)`. -/
  isCti : Bool
  /-- `instr_is_interrupt(inst)`. -/
  isInterrupt : Bool
  /-- `instr_is_syscall(inst)`. -/
  isSyscall : Bool
  /-- `instr_is_ubr(inst)`. -/
  isUbr : Bool
  /-- `instr_is_cbr(inst)`. -/
  isCbr : Bool
  /-- `opnd_is_instr(instr_get_target(inst))`. -/
  targetIsInstr : Bool
  /-- `instr_is_app(inst)`. -/
  isApp : Bool
  /-- `instr_get_arith_flags(inst, DR_QUERY_INCLUDE_COND_SRCS)`. -/
  arithFlags : Nat
  /-- Contribution of this instruction's operands to a GPR's `app_uses`
  counter, as accumulated by `count_app_uses` (memory operands already
  double-counted). -/
  usesGpr : GprIdx → Nat
  /-- Contribution to a SIMD register's `app_uses` counter. -/
  usesSimd : SimdIdx → Nat
  /-- `instr_reads_from_reg(inst, zmm_reg, DR_QUERY_INCLUDE_COND_SRCS)`. -/
  simdReads : SimdIdx → Bool
  /-- `instr_reads_from_exact_reg(inst, zmm_reg, ...)`. -/
  simdReadsExactZmm : SimdIdx → Bool
  /-- `instr_reads_from_exact_reg(inst, ymm_reg, ...)`. -/
  simdReadsExactYmm : SimdIdx → Bool
  /-- `instr_reads_from_exact_reg(inst, xmm_reg, ...)`. -/
  simdReadsExactXmm : SimdIdx → Bool
  /-- `is_partial_simd_read(inst, zmm_reg)`. -/
  simdPartialRdZmm : SimdIdx → Bool
  /-- `is_partial_simd_read(inst, ymm_reg)`. -/
  simdPartialRdYmm : SimdIdx → Bool
  /-- `is_partial_simd_read(inst, xmm_reg)`. -/
  simdPartialRdXmm : SimdIdx → Bool
  /-- `instr_writes_to_reg(inst, zmm_reg, DR_QUERY_INCLUDE_COND_SRCS)`. -/
  simdWrites : SimdIdx → Bool
  /-- `instr_writes_to_exact_reg(inst, zmm_reg, ...)`. -/
  simdWritesExactZmm : SimdIdx → Bool
  /-- `instr_writes_to_exact_reg(inst, ymm_reg, ...)`. -/
  simdWritesExactYmm : SimdIdx → Bool
  /-- `instr_writes_to_exact_reg(inst, xmm_reg, ...)`. -/
  simdWritesExactXmm : SimdIdx → Bool

/-- Per-register bookkeeping record (`reg_info_t`).  The live vector is a
total map from reverse instruction index to the stored liveness code. -/
structure RegInfo where
  live : Nat → Nat
  in_use : Bool
  app_uses : Nat
  ever_spilled : Bool
  native : Bool
  xchg : Option GprIdx
  slot : Nat

/-- Per-thread drreg state (`per_thread_t`), restricted to the fields the
embedded routines touch. -/
structure PerThread where
  reg : GprIdx → RegInfo
  simd_reg : SimdIdx → RegInfo
  aflags : RegInfo
  slot_use : Nat → Option GprIdx
  simd_slot_use : Nat → Option SimdIdx
  pending_unreserved : Nat
  simd_pending_unreserved : Nat
  live_idx : Nat
  bb_props : Nat
  bb_has_internal_flow : Bool

/-- Global drreg options (`drreg_options_t` as accumulated in `ops`). -/
structure Ops where
  num_spill_slots : Nat
  num_spill_simd_slots : Nat
  conservative : Bool
  do_not_sum_slots : Bool

/-- An emitted spill/restore/flags instruction, as inserted by the
embedded routines via `PRE`/`dr_insert_{read,write}_raw_tls`. -/
inductive Emit where
  /-- A store of a GPR into a spill slot (`spill_reg_directly`). -/
  | store (r : GprIdx) (slot : Nat)
  /-- A load of a GPR from a spill slot (`restore_reg_directly`). -/
  | load (r : GprIdx) (slot : Nat)
  /-- `INSTR_CREATE_xchg`. -/
  | xchgRegs (a b : GprIdx)
  /-- `INSTR_CREATE_lahf`. -/
  | lahf
  /-- `INSTR_CREATE_setcc(OP_seto, %al)`. -/
  | seto
  /-- `INSTR_CREATE_sahf`. -/
  | sahf
  /-- `INSTR_CREATE_cmp(%al, -127)`. -/
  | cmpAlImm
  deriving DecidableEq, Repr

/-- Whether an emitted instruction is a spill store. -/
def Emit.isStore : Emit → Bool
  | .store _ _ => true
  | _ => false

/-- Point update of a slot-use table. -/
def updSlot (su : Nat → Option GprIdx) (slot : Nat) (v : Option GprIdx) :
    Nat → Option GprIdx :=
  fun i => if i = slot then v else su i

/-- Point update of one GPR's record. -/
def updReg (pt : PerThread) (r : GprIdx) (f : RegInfo → RegInfo) : PerThread :=
  { pt with reg := fun r2 => if r2 = r then f (pt.reg r2) else pt.reg r2 }

/-- `spill_reg_directly`: record the slot as used by `reg` and emit the
store.  (If the slot is the aflags slot the source also marks
`pt->aflags.ever_spilled`.)  Whether the store targets a drreg TLS slot or
a DR spill slot depends only on the slot index and is not distinguished in
the emitted-instruction abstraction. -/
def spill_reg_directly (pt : PerThread) (r : GprIdx) (slot : Nat) :
    PerThread × List Emit :=
  let pt :=
    if slot = AFLAGS_SLOT then
      { pt with aflags := { pt.aflags with ever_spilled := true } }
    else pt
  ({ pt with slot_use := updSlot pt.slot_use slot (some r) }, [Emit.store r slot])

/-- `restore_reg_directly`: emit the load; release the slot if asked. -/
def restore_reg_directly (pt : PerThread) (r : GprIdx) (slot : Nat)
    (release : Bool) : PerThread × List Emit :=
  ({ pt with
      slot_use := if release then updSlot pt.slot_use slot none else pt.slot_use },
    [Emit.load r slot])

/-- Loop body of `find_free_slot`: scan `n` slot indices starting at `i`
and return the first free one, else `MAX_SPILLS`. -/
def find_free_slot_from (su : Nat → Option GprIdx) : Nat → Nat → Nat
  | _, 0 => MAX_SPILLS
  | i, n + 1 => if su i = none then i else find_free_slot_from su (i + 1) n

/-- `find_free_slot`: first free GPR slot strictly above `AFLAGS_SLOT`,
or `MAX_SPILLS` when all are occupied. -/
def find_free_slot (pt : PerThread) : Nat :=
  find_free_slot_from pt.slot_use (AFLAGS_SLOT + 1) (MAX_SPILLS - (AFLAGS_SLOT + 1))

/-- Loop body of `find_simd_free_slot`: scan `n` SIMD slot indices
starting at `i` and return the first free one, else `MAX_SIMD_SPILLS`. -/
def find_simd_free_slot_from (su : Nat → Option SimdIdx) : Nat → Nat → Nat
  | _, 0 => MAX_SIMD_SPILLS
  | i, n + 1 => if su i = none then i else find_simd_free_slot_from su (i + 1) n

/-- `find_simd_free_slot`: first free SIMD slot below
`ops.num_spill_simd_slots`, or `MAX_SIMD_SPILLS` when none is free. -/
def find_simd_free_slot (ops : Ops) (pt : PerThread) : Nat :=
  find_simd_free_slot_from pt.simd_slot_use 0 ops.num_spill_simd_slots

/-- `determine_simd_liveness_state`: given the current `*value`, decide
the SIMD liveness contribution of one instruction for one register.
Returns `(state_was_set, new_value)`; when the first component is false
the value is left unchanged, exactly as in the source. -/
def determine_simd_liveness_state (inst : Inst) (s : SimdIdx) (value : Nat) :
    Bool × Nat :=
  if inst.simdReads s then
    if (inst.simdReadsExactZmm s || inst.simdPartialRdZmm s) &&
        (decide (value ≤ SIMD_ZMM_LIVE) || decide (value = SIMD_UNKNOWN)) then
      (true, SIMD_ZMM_LIVE)
    else if (inst.simdReadsExactYmm s || inst.simdPartialRdYmm s) &&
        (decide (value ≤ SIMD_YMM_LIVE) || decide (value = SIMD_UNKNOWN)) then
      (true, SIMD_YMM_LIVE)
    else if (inst.simdReadsExactXmm s || inst.simdPartialRdXmm s) &&
        (decide (value ≤ SIMD_XMM_LIVE) || decide (value = SIMD_UNKNOWN)) then
      (true, SIMD_XMM_LIVE)
    else
      -- the source asserts here and falls back to SIMD_ZMM_LIVE
      (true, SIMD_ZMM_LIVE)
  else if inst.simdWrites s then
    if inst.simdWritesExactZmm s then (true, SIMD_ZMM_DEAD)
    else if inst.simdWritesExactYmm s &&
        (decide (value < SIMD_YMM_DEAD) || decide (value ≥ SIMD_XMM_LIVE)) then
      (true, SIMD_YMM_DEAD)
    else if inst.simdWritesExactXmm s && decide (value ≥ SIMD_XMM_LIVE) then
      (true, SIMD_XMM_DEAD)
    else (false, value)
  else (false, value)

/-- Whether the block-mode scan treats an instruction as a transfer
(`instr_is_cti || instr_is_interrupt || instr_is_syscall`). -/
def instXfer (inst : Inst) : Bool :=
  inst.isCti || inst.isInterrupt || inst.isSyscall

/-- The GPR liveness value stored at reverse index `index` by one
iteration of the block-mode scan of `drreg_event_bb_analysis`, where
`vec` is the register's live vector before this iteration. -/
def drreg_gpr_live_val (inst : Inst) (xfer : Bool) (index : Nat)
    (vec : Nat → Nat) (r : GprIdx) : Nat :=
  if inst.readsReg r then REG_LIVE
  else if inst.writesExact r || inst.writesExact32 r then REG_DEAD
  else if xfer then REG_LIVE
  else if 0 < index then vec (index - 1)
  else REG_LIVE

/-- The SIMD liveness value stored at reverse index `index` by one
iteration of the block-mode scan. -/
def drreg_simd_live_val (inst : Inst) (xfer : Bool) (index : Nat)
    (vec : Nat → Nat) (s : SimdIdx) : Nat :=
  let res := determine_simd_liveness_state inst s SIMD_UNKNOWN
  if res.1 then res.2
  else if xfer then SIMD_ZMM_LIVE
  else if 0 < index then vec (index - 1)
  else SIMD_UNKNOWN

/-- The aflags liveness mask stored at reverse index `index` by one
iteration of the block-mode scan. -/
def drreg_aflags_live_val (inst : Inst) (xfer : Bool) (index : Nat)
    (vec : Nat → Nat) : Nat :=
  if xfer then EFLAGS_READ_ARITH
  else
    let aflags_new := inst.arithFlags &&& EFLAGS_ARITH_ALL
    let acur := if index = 0 then EFLAGS_READ_ARITH else vec (index - 1)
    let aflags_read := aflags_new &&& EFLAGS_READ_ARITH
    let acur := acur ||| aflags_read
    let w2r := EFLAGS_WRITE_TO_READ (aflags_new &&& EFLAGS_WRITE_ARITH)
    maskAndNot acur (maskAndNot w2r aflags_read)

/-- One iteration of the reverse scan of `drreg_event_bb_analysis`:
process instruction `inst` at reverse index `st.2`, recording the
liveness of every GPR, SIMD register and the aflags at that index,
flagging intra-block control flow, and counting application register
uses.  The per-register inner loops of the source are independent across
registers and are rendered as simultaneous pointwise updates. -/
def bb_analysis_step (inst : Inst) (st : PerThread × Nat) : PerThread × Nat :=
  let pt := st.1
  let index := st.2
  let xfer := instXfer inst
  let pt :=
    if !pt.bb_has_internal_flow && (inst.isUbr || inst.isCbr) &&
        inst.targetIsInstr then
      { pt with bb_has_internal_flow := true }
    else pt
  let pt := { pt with reg := fun r =>
    let ri := pt.reg r
    { ri with live := fun j =>
        if j = index then drreg_gpr_live_val inst xfer index ri.live r
        else ri.live j } }
  let pt := { pt with simd_reg := fun s =>
    let ri := pt.simd_reg s
    { ri with live := fun j =>
        if j = index then drreg_simd_live_val inst xfer index ri.live s
        else ri.live j } }
  let pt := { pt with aflags :=
    { pt.aflags with live := fun j =>
        if j = index then drreg_aflags_live_val inst xfer index pt.aflags.live
        else pt.aflags.live j } }
  let pt :=
    if inst.isApp then
      { pt with
        reg := fun r =>
          { pt.reg r with app_uses := (pt.reg r).app_uses + inst.usesGpr r },
        simd_reg := fun s =>
          { pt.simd_reg s with app_uses := (pt.simd_reg s).app_uses + inst.usesSimd s } }
    else pt
  (pt, index + 1)

/-- The reverse-scan loop of `drreg_event_bb_analysis` over a list of
instructions already in reverse block order. -/
def bb_analysis_loop (st : PerThread × Nat) (revInsts : List Inst) :
    PerThread × Nat :=
  revInsts.foldl (fun st inst => bb_analysis_step inst st) st

/-- `drreg_event_bb_analysis`: zero the application-use counters, clear
the intra-block control-flow flag, scan the block from its last
instruction to its first filling the live vectors at reverse indices
0, 1, ..., and leave `live_idx` at the number of instructions. -/
def drreg_event_bb_analysis (pt : PerThread) (bb : List Inst) : PerThread :=
  let pt := { pt with
    reg := fun r => { pt.reg r with app_uses := 0 },
    simd_reg := fun s => { pt.simd_reg s with app_uses := 0 },
    bb_has_internal_flow := false }
  let res := bb_analysis_loop (pt, 0) bb.reverse
  { res.1 with live_idx := res.2 }

/-- Whether the forward scan of `drreg_forward_analysis` stops at this
instruction (control transfer, interrupt, or system call). -/
def fwd_stop (inst : Inst) : Bool :=
  inst.isCti || inst.isInterrupt || inst.isSyscall

/-- The first-event value of one instruction for one GPR in the forward
scan (`REG_UNKNOWN` when the instruction neither reads nor exactly
writes the register). -/
def fwd_gpr_val (inst : Inst) (r : GprIdx) : Nat :=
  if inst.readsReg r then REG_LIVE
  else if inst.writesExact r || inst.writesExact32 r then REG_DEAD
  else REG_UNKNOWN

/-- Per-GPR update of one non-stopping forward-scan iteration: if the
register's state at index 0 is still `REG_UNKNOWN` and this instruction
has a first event for it, record that event. -/
def fwd_gpr_update (inst : Inst) (r : GprIdx) (ri : RegInfo) : RegInfo :=
  if (ri.live 0 ≠ REG_UNKNOWN) then ri
  else
    let v := fwd_gpr_val inst r
    if (v ≠ REG_UNKNOWN) then
      { ri with live := fun j => if j = 0 then v else ri.live j }
    else ri

/-- Per-SIMD-register update of one non-stopping forward-scan iteration. -/
def fwd_simd_update (inst : Inst) (s : SimdIdx) (ri : RegInfo) : RegInfo :=
  if (ri.live 0 ≠ SIMD_UNKNOWN) then ri
  else
    let v := (determine_simd_liveness_state inst s SIMD_UNKNOWN).2
    if (v ≠ SIMD_UNKNOWN) then
      { ri with live := fun j => if j = 0 then v else ri.live j }
    else ri

/-- One non-stopping iteration of the forward scan: for every register
still `REG_UNKNOWN`/`SIMD_UNKNOWN` at index 0, record this instruction's
first event (if any), and accumulate application uses. -/
def fwd_scan_step (inst : Inst) (pt : PerThread) : PerThread :=
  let pt := { pt with reg := fun r => fwd_gpr_update inst r (pt.reg r) }
  let pt := { pt with simd_reg := fun s => fwd_simd_update inst s (pt.simd_reg s) }
  if inst.isApp then
    { pt with
      reg := fun r =>
        { pt.reg r with app_uses := (pt.reg r).app_uses + inst.usesGpr r },
      simd_reg := fun s =>
        { pt.simd_reg s with app_uses := (pt.simd_reg s).app_uses + inst.usesSimd s } }
  else pt

/-- The aflags accumulation of one forward-scan iteration
(`aflags_cur |= aflags_new` after masking). -/
def fwd_aflags_step (acur : Nat) (inst : Inst) : Nat :=
  let aflags_new := inst.arithFlags &&& EFLAGS_ARITH_ALL
  let aflags_new := maskAndNot aflags_new (EFLAGS_READ_TO_WRITE aflags_new)
  let aflags_new := maskAndNot aflags_new (EFLAGS_WRITE_TO_READ acur)
  acur ||| aflags_new

/-- The forward-scan loop of `drreg_forward_analysis`: walk forward until
the first control transfer, interrupt, or system call. -/
def fwd_scan : List Inst → PerThread → Nat → PerThread × Nat
  | [], pt, acur => (pt, acur)
  | inst :: rest, pt, acur =>
    if fwd_stop inst then (pt, acur)
    else fwd_scan rest (fwd_scan_step inst pt) (fwd_aflags_step acur inst)

/-- The initialization loops of `drreg_forward_analysis`: zero the
application-use counters and reset index 0 of every live vector to
unknown (also clearing the SIMD `ever_spilled` flags; the GPR flags are
left as-is, xref i#3827). -/
def fwd_analysis_init (pt : PerThread) : PerThread :=
  { pt with
    reg := fun r =>
      { pt.reg r with
        app_uses := 0,
        live := fun j => if j = 0 then REG_UNKNOWN else (pt.reg r).live j },
    simd_reg := fun s =>
      { pt.simd_reg s with
        app_uses := 0,
        ever_spilled := false,
        live := fun j => if j = 0 then SIMD_UNKNOWN else (pt.simd_reg s).live j } }

/-- `drreg_forward_analysis`: reset index 0 of every live vector to
unknown, scan forward from `start`, then pessimistically set every
register still unknown to live (SIMD: zmm-live) and store the aflags
result, all at index 0 only. -/
def drreg_forward_analysis (pt : PerThread) (insts : List Inst) : PerThread :=
  let pt := fwd_analysis_init pt
  let res := fwd_scan insts pt 0
  let pt := res.1
  let acur := res.2
  let pt := { pt with live_idx := 0 }
  let pt := { pt with
    reg := fun r =>
      if ((pt.reg r).live 0 = REG_UNKNOWN) then
        { pt.reg r with live := fun j => if j = 0 then REG_LIVE else (pt.reg r).live j }
      else pt.reg r,
    simd_reg := fun s =>
      if ((pt.simd_reg s).live 0 = SIMD_UNKNOWN) then
        { pt.simd_reg s with
          live := fun j => if j = 0 then SIMD_ZMM_LIVE else (pt.simd_reg s).live j }
      else pt.simd_reg s }
  let afin := maskAndNot EFLAGS_READ_ARITH (EFLAGS_WRITE_TO_READ acur)
  { pt with aflags :=
      { pt.aflags with live := fun j => if j = 0 then afin else pt.aflags.live j } }

/-- Whether a register is allowed by a `reg_allowed` vector (a NULL
vector allows every register). -/
def allowedAt (allowed : Option (GprIdx → Bool)) (r : GprIdx) : Bool :=
  match allowed with
  | none => true
  | some f => f r

/-- The condition under which the first loop of
`drreg_reserve_gpr_internal` reuses a previously unreserved but not yet
lazily restored register. -/
def pendingReuseCond (pt : PerThread) (allowed : Option (GprIdx → Bool))
    (only_if_no_spill : Bool) (r : GprIdx) : Bool :=
  !(pt.reg r).native && !(pt.reg r).in_use && allowedAt allowed r &&
    (!only_if_no_spill || (pt.reg r).ever_spilled ||
      decide ((pt.reg r).live pt.live_idx = REG_DEAD))

/-- The first loop of `drreg_reserve_gpr_internal`: when any unreserved
registers are pending lazy restore, find the first register (in GPR
order) that can be reused. -/
def drreg_pick_pending (pt : PerThread) (allowed : Option (GprIdx → Bool))
    (only_if_no_spill : Bool) : Option GprIdx :=
  if 0 < pt.pending_unreserved then
    (List.finRange 16).find? (fun r => pendingReuseCond pt allowed only_if_no_spill r)
  else none

/-- The second loop of `drreg_reserve_gpr_internal`, over the GPR list in
order: break at the first dead candidate (`Sum.inl`), else return the
not-in-use allowed register with the fewest application uses
(`Sum.inr`).  On x86 `dr_get_stolen_reg()` is `DR_REG_NULL`, so only the
stack pointer is excluded. -/
def drreg_find_dead_or_best_loop (pt : PerThread)
    (allowed : Option (GprIdx → Bool)) (only_if_no_spill : Bool) :
    List GprIdx → Option GprIdx → Nat → GprIdx ⊕ Option GprIdx
  | [], best, _ => Sum.inr best
  | r :: rest, best, min_uses =>
    if (pt.reg r).in_use then
      drreg_find_dead_or_best_loop pt allowed only_if_no_spill rest best min_uses
    else if r = XSP_IDX then
      drreg_find_dead_or_best_loop pt allowed only_if_no_spill rest best min_uses
    else if !allowedAt allowed r then
      drreg_find_dead_or_best_loop pt allowed only_if_no_spill rest best min_uses
    else if ((pt.reg r).live pt.live_idx = REG_DEAD) then Sum.inl r
    else if only_if_no_spill then
      drreg_find_dead_or_best_loop pt allowed only_if_no_spill rest best min_uses
    else if ((pt.reg r).app_uses < min_uses) then
      drreg_find_dead_or_best_loop pt allowed only_if_no_spill rest (some r)
        (pt.reg r).app_uses
    else
      drreg_find_dead_or_best_loop pt allowed only_if_no_spill rest best min_uses

/-- `UINT_MAX`, the initial value of `min_uses`. -/
def UINT_MAX : Nat := 4294967295

/-- The dead-or-least-used search of `drreg_reserve_gpr_internal`. -/
def drreg_find_dead_or_best (pt : PerThread) (allowed : Option (GprIdx → Bool))
    (only_if_no_spill : Bool) : GprIdx ⊕ Option GprIdx :=
  drreg_find_dead_or_best_loop pt allowed only_if_no_spill
    (List.finRange 16) none UINT_MAX

/-- The aflags-in-accumulator rescue condition of
`drreg_reserve_gpr_internal` (x86): aflags were unreserved but still live
in xax, xax is the only obstacle, and xax is allowed. -/
def aflags_xax_rescue_cond (pt : PerThread)
    (allowed : Option (GprIdx → Bool)) : Bool :=
  !pt.aflags.in_use && (pt.reg XAX_IDX).in_use &&
    decide (pt.aflags.xchg = some XAX_IDX) && allowedAt allowed XAX_IDX

/-- The tail of `drreg_reserve_gpr_internal` once a register and a slot
have been selected (source lines marking the register in use, spilling it
if it is live or `conservative` is set — otherwise just binding the slot —
and filling in the register record). -/
def drreg_finish_reserve (ops : Ops) (pt : PerThread) (ems : List Emit)
    (r : GprIdx) (slot : Nat) (already_spilled : Bool) :
    DrregStatus × PerThread × List Emit × Option GprIdx :=
  let pt := updReg pt r (fun ri => { ri with in_use := true })
  let res :=
    if !already_spilled then
      if ops.conservative || decide ((pt.reg r).live pt.live_idx = REG_LIVE) then
        let sr := spill_reg_directly pt r slot
        (updReg sr.1 r (fun ri => { ri with ever_spilled := true }), sr.2)
      else
        (updReg { pt with slot_use := updSlot pt.slot_use slot (some r) } r
          (fun ri => { ri with ever_spilled := false }), ([] : List Emit))
    else (pt, ([] : List Emit))
  let pt := updReg res.1 r (fun ri => { ri with native := false, xchg := none, slot := slot })
  (.success, pt, ems ++ res.2, some r)

/-- `drreg_restore_reg_now`, GPR branch: restore the register's
application value immediately (or just release the slot if it was never
spilled) and mark it native. -/
def drreg_restore_reg_now (pt : PerThread) (r : GprIdx) :
    DrregStatus × PerThread × List Emit :=
  if (pt.reg r).ever_spilled then
    if ((pt.reg r).xchg ≠ none) then (.featureNotAvailable, pt, [])
    else
      let rr := restore_reg_directly pt r (pt.reg r).slot true
      (.success, updReg rr.1 r (fun ri => { ri with native := true }), rr.2)
  else
    let pt := { pt with slot_use := updSlot pt.slot_use (pt.reg r).slot none }
    (.success, updReg pt r (fun ri => { ri with native := true }), [])

/-- `drreg_unreserve_register`, GPR branch: outside the insertion phase
restore immediately; inside it, defer to the lazy restore and count the
register as pending-unreserved.  Either way clear `in_use`. -/
def drreg_unreserve_register (phase : DrPhase) (pt : PerThread) (r : GprIdx) :
    DrregStatus × PerThread × List Emit :=
  if !(pt.reg r).in_use then (.invalidParameter, pt, [])
  else if phase ≠ DrPhase.insertion then
    let res := drreg_restore_reg_now pt r
    if (res.1 ≠ DrregStatus.success) then res
    else (.success, updReg res.2.1 r (fun ri => { ri with in_use := false }), res.2.2)
  else
    (.success,
      updReg { pt with pending_unreserved := pt.pending_unreserved + 1 } r
        (fun ri => { ri with in_use := false }), [])

mutual

/-- `drreg_reserve_gpr_internal`: pick a GPR (reuse a pending-unreserved
one, else a dead one, else the least-used one, else evict aflags from
xax), assign a spill slot, and spill if needed.  `fuel` bounds the
mutual-recursion depth through the aflags-eviction path (the source's
actual depth is a small constant); at fuel 0 the model returns `.error`,
a status the source never produces on this path.  The `reg_out == NULL`
parameter check of the source is not modeled (the out parameter is the
fourth component of the result). -/
def drreg_reserve_gpr_internal : Nat → Ops → DrPhase → PerThread →
    Option (GprIdx → Bool) → Bool →
    DrregStatus × PerThread × List Emit × Option GprIdx
  | 0, _, _, pt, _, _ => (.error, pt, [], none)
  | fuel + 1, ops, phase, pt, allowed, only_if_no_spill =>
    match drreg_pick_pending pt allowed only_if_no_spill with
    | some r =>
      let pt1 := { pt with pending_unreserved := pt.pending_unreserved - 1 }
      let slot := (pt.reg r).slot
      let already := (pt.reg r).ever_spilled
      if slot = MAX_SPILLS then
        let slot2 := find_free_slot pt1
        if slot2 = MAX_SPILLS then (.outOfSlots, pt1, [], none)
        else drreg_finish_reserve ops pt1 [] r slot2 already
      else drreg_finish_reserve ops pt1 [] r slot already
    | none =>
      match drreg_find_dead_or_best pt allowed only_if_no_spill with
      | Sum.inl r =>
        let slot2 := find_free_slot pt
        if slot2 = MAX_SPILLS then (.outOfSlots, pt, [], none)
        else drreg_finish_reserve ops pt [] r slot2 false
      | Sum.inr (some best) =>
        let slot2 := find_free_slot pt
        if slot2 = MAX_SPILLS then (.outOfSlots, pt, [], none)
        else drreg_finish_reserve ops pt [] best slot2 false
      | Sum.inr none =>
        if aflags_xax_rescue_cond pt allowed then
          let mv := drreg_move_aflags_from_reg fuel ops phase pt true
          let slot2 := find_free_slot mv.1
          if slot2 = MAX_SPILLS then (.outOfSlots, mv.1, mv.2, none)
          else drreg_finish_reserve ops mv.1 mv.2 XAX_IDX slot2 false
        else (.regConflict, pt, [], none)

/-- `drreg_move_aflags_from_reg` (x86): the caller only calls this while
aflags live in xax.  If aflags are in use (or the call is stateless),
store xax into the aflags slot; otherwise lazily restore the application
aflags and drop the aflags slot.  Then restore or release xax's own slot
and, when stateful, mark xax free and native again.  Failures of the
inner restore are passed to `drreg_report_error` by the source, which
either aborts the process or (when the client's error callback suppresses
the error) continues; the model continues. -/
def drreg_move_aflags_from_reg : Nat → Ops → DrPhase → PerThread → Bool →
    PerThread × List Emit
  | 0, _, _, pt, _ => (pt, [])
  | fuel + 1, ops, phase, pt, stateful =>
    let step1 : PerThread × List Emit :=
      if pt.aflags.in_use || !stateful then
        spill_reg_directly pt XAX_IDX AFLAGS_SLOT
      else if !pt.aflags.native then
        let ra := drreg_restore_aflags fuel ops phase pt true
        let ptA := { ra.2.1 with aflags := { ra.2.1.aflags with native := true } }
        ({ ptA with slot_use := updSlot ptA.slot_use AFLAGS_SLOT none }, ra.2.2)
      else (pt, [])
    let pt1 := step1.1
    let xslot := (pt1.reg XAX_IDX).slot
    let step2 : PerThread × List Emit :=
      if ops.conservative ||
          decide ((pt1.reg XAX_IDX).live pt1.live_idx = REG_LIVE) then
        restore_reg_directly pt1 XAX_IDX xslot stateful
      else if stateful then
        ({ pt1 with slot_use := updSlot pt1.slot_use xslot none }, [])
      else (pt1, [])
    let pt2 := step2.1
    let pt3 :=
      if stateful then
        updReg { pt2 with aflags := { pt2.aflags with xchg := none } } XAX_IDX
          (fun ri => { ri with in_use := false, native := true, ever_spilled := false })
      else pt2
    (pt3, step1.2 ++ step2.2)

/-- `drreg_restore_aflags` (x86): restore the application aflags at the
current point.  When the flags are parked in xax only `sahf` (plus the
overflow-restoring `cmp`) is needed; otherwise xax must be freed or
preserved around loading the aflags slot. -/
def drreg_restore_aflags : Nat → Ops → DrPhase → PerThread → Bool →
    DrregStatus × PerThread × List Emit
  | 0, _, _, pt, _ => (.error, pt, [])
  | fuel + 1, ops, phase, pt, release =>
    let afl := pt.aflags.live pt.live_idx
    if pt.aflags.native then (.success, pt, [])
    else
      let stage1 : (DrregStatus × PerThread × List Emit) ⊕
          (PerThread × List Emit × Option GprIdx × Nat) :=
        if (pt.aflags.xchg = some XAX_IDX) then Sum.inr (pt, [], none, 0)
        else
          let temp_slot := find_free_slot pt
          if temp_slot = MAX_SPILLS then Sum.inl (.outOfSlots, pt, [])
          else if (pt.reg XAX_IDX).in_use then
            let rr := drreg_reserve_gpr_internal fuel ops phase pt none false
            if (rr.1 ≠ DrregStatus.success) then Sum.inl (rr.1, rr.2.1, rr.2.2.1)
            else
              match rr.2.2.2 with
              | none => Sum.inl (.error, rr.2.1, rr.2.2.1)
              | some xswap =>
                let rd := restore_reg_directly rr.2.1 XAX_IDX AFLAGS_SLOT release
                Sum.inr (rd.1, rr.2.2.1 ++ [Emit.xchgRegs XAX_IDX xswap] ++ rd.2,
                  some xswap, temp_slot)
          else
            let sp :=
              if ops.conservative ||
                  decide ((pt.reg XAX_IDX).live pt.live_idx = REG_LIVE) then
                spill_reg_directly pt XAX_IDX temp_slot
              else (pt, [])
            let rd := restore_reg_directly sp.1 XAX_IDX AFLAGS_SLOT release
            Sum.inr (rd.1, sp.2 ++ rd.2, none, temp_slot)
      match stage1 with
      | Sum.inl out => out
      | Sum.inr (pt1, em1, xswapOpt, temp_slot) =>
        let emC := (if testAny EFLAGS_READ_OF afl then [Emit.cmpAlImm] else []) ++
          [Emit.sahf]
        match xswapOpt with
        | some xswap =>
          let un := drreg_unreserve_register phase pt1 xswap
          ((if un.1 = DrregStatus.success then DrregStatus.success else un.1),
            un.2.1, em1 ++ emC ++ [Emit.xchgRegs xswap XAX_IDX] ++ un.2.2)
        | none =>
          if (pt1.aflags.xchg = some XAX_IDX) then
            let pt2 :=
              if release then
                updReg { pt1 with aflags := { pt1.aflags with xchg := none } }
                  XAX_IDX (fun ri => { ri with in_use := false })
              else pt1
            (.success, pt2, em1 ++ emC)
          else
            let rd :=
              if ops.conservative ||
                  decide ((pt1.reg XAX_IDX).live pt1.live_idx = REG_LIVE) then
                restore_reg_directly pt1 XAX_IDX temp_slot true
              else (pt1, [])
            (.success, rd.1, em1 ++ emC ++ rd.2)

/-- `drreg_spill_aflags` (x86): save the application aflags via
`lahf` (+ `seto`), swapping xax out and back if some client holds it,
and otherwise keeping the flags parked in xax itself. -/
def drreg_spill_aflags : Nat → Ops → DrPhase → PerThread →
    DrregStatus × PerThread × List Emit
  | 0, _, _, pt => (.error, pt, [])
  | fuel + 1, ops, phase, pt =>
    let afl := pt.aflags.live pt.live_idx
    let stage1 : (DrregStatus × PerThread × List Emit) ⊕
        (PerThread × List Emit × Option GprIdx) :=
      if (pt.reg XAX_IDX).in_use && !(decide (pt.aflags.xchg = some XAX_IDX)) then
        let rr := drreg_reserve_gpr_internal fuel ops phase pt none false
        if (rr.1 ≠ DrregStatus.success) then Sum.inl (rr.1, rr.2.1, rr.2.2.1)
        else
          match rr.2.2.2 with
          | none => Sum.inl (.error, rr.2.1, rr.2.2.1)
          | some xswap =>
            Sum.inr (rr.2.1, rr.2.2.1 ++ [Emit.xchgRegs XAX_IDX xswap], some xswap)
      else Sum.inr (pt, [], none)
    match stage1 with
    | Sum.inl out => out
    | Sum.inr (pt1, em1, xswapOpt) =>
      let stage2 : (DrregStatus × PerThread × List Emit) ⊕ (PerThread × List Emit) :=
        if !(pt1.reg XAX_IDX).native then Sum.inr (pt1, em1)
        else if !(decide (pt1.aflags.xchg = some XAX_IDX)) then
          let xax_slot := find_free_slot pt1
          if xax_slot = MAX_SPILLS then Sum.inl (.outOfSlots, pt1, em1)
          else
            let sp :=
              if ops.conservative ||
                  decide ((pt1.reg XAX_IDX).live pt1.live_idx = REG_LIVE) then
                spill_reg_directly pt1 XAX_IDX xax_slot
              else
                ({ pt1 with slot_use := updSlot pt1.slot_use xax_slot (some XAX_IDX) },
                  [])
            Sum.inr (updReg sp.1 XAX_IDX (fun ri => { ri with slot := xax_slot }),
              em1 ++ sp.2)
        else Sum.inr (pt1, em1)
      match stage2 with
      | Sum.inl out => out
      | Sum.inr (pt2, em2) =>
        let em3 := em2 ++ [Emit.lahf] ++
          (if testAny EFLAGS_READ_OF afl then [Emit.seto] else [])
        match xswapOpt with
        | some xswap =>
          let sp := spill_reg_directly pt2 xswap AFLAGS_SLOT
          let un := drreg_unreserve_register phase sp.1 xswap
          ((if un.1 = DrregStatus.success then DrregStatus.success else un.1),
            un.2.1, em3 ++ [Emit.xchgRegs xswap XAX_IDX] ++ sp.2 ++ un.2.2)
        | none =>
          let pt3 :=
            updReg { pt2 with aflags := { pt2.aflags with xchg := some XAX_IDX } }
              XAX_IDX (fun ri =>
                { ri with in_use := true, native := false, ever_spilled := true })
          (.success, pt3, em3)

end

/-- `drreg_reserve_aflags`: outside the insertion phase run the forward
analysis first (`insts` are the instructions from `where` onward).
Aflags are exclusively owned: a second reservation fails with
`DRREG_ERROR_IN_USE`.  Dead aflags are taken over without any spill;
a not-yet-lazily-restored prior reservation is reused; otherwise the
flags are spilled via `drreg_spill_aflags`. -/
def drreg_reserve_aflags (fuel : Nat) (ops : Ops) (phase : DrPhase)
    (insts : List Inst) (pt : PerThread) : DrregStatus × PerThread × List Emit :=
  let pt := if phase ≠ DrPhase.insertion then drreg_forward_analysis pt insts else pt
  let afl := pt.aflags.live pt.live_idx
  if pt.aflags.in_use then (.inUse, pt, [])
  else if !(testAny EFLAGS_READ_ARITH afl) then
    let pt :=
      if !pt.aflags.native then
        { pt with slot_use := updSlot pt.slot_use AFLAGS_SLOT none }
      else pt
    (.success, { pt with aflags := { pt.aflags with in_use := true, native := true } }, [])
  else if !pt.aflags.native ||
      ((pt.reg XAX_IDX).in_use && decide (pt.aflags.xchg = some XAX_IDX)) then
    (.success, { pt with aflags := { pt.aflags with native := false, in_use := true } }, [])
  else
    let pt := { pt with aflags := { pt.aflags with xchg := none } }
    let sp := drreg_spill_aflags fuel ops phase pt
    if (sp.1 ≠ DrregStatus.success) then sp
    else
      (.success,
        { sp.2.1 with aflags :=
            { sp.2.1.aflags with in_use := true, native := false, slot := AFLAGS_SLOT } },
        sp.2.2)

/-- `drreg_reserve_register` (GPR spill class): run the forward analysis
when called outside the insertion phase, then reserve with
`only_if_no_spill = false`. -/
def drreg_reserve_register (fuel : Nat) (ops : Ops) (phase : DrPhase)
    (insts : List Inst) (pt : PerThread) (allowed : Option (GprIdx → Bool)) :
    DrregStatus × PerThread × List Emit × Option GprIdx :=
  let pt := if phase ≠ DrPhase.insertion then drreg_forward_analysis pt insts else pt
  drreg_reserve_gpr_internal fuel ops phase pt allowed false

/-- `drreg_reserve_dead_register` (GPR spill class, via
`drreg_reserve_dead_register_ex`): like `drreg_reserve_register` but with
`only_if_no_spill = true`. -/
def drreg_reserve_dead_register (fuel : Nat) (ops : Ops) (phase : DrPhase)
    (insts : List Inst) (pt : PerThread) (allowed : Option (GprIdx → Bool)) :
    DrregStatus × PerThread × List Emit × Option GprIdx :=
  let pt := if phase ≠ DrPhase.insertion then drreg_forward_analysis pt insts else pt
  drreg_reserve_gpr_internal fuel ops phase pt allowed true

/-- The register named by one decoded spill/restore during the
fault-time walk: a GPR for direct TLS accesses, a SIMD register for the
indirect two-instruction idiom. -/
inductive WalkReg where
  | gpr (r : GprIdx)
  | simd (s : SimdIdx)
  deriving DecidableEq, Repr

/-- One decoded instruction of the fault-time walk of
`drreg_event_restore_state`, abstracted to how
`is_our_spill_or_restore` classifies it. -/
inductive WalkEvent where
  /-- `is_our_spill_or_restore` returned true with these outputs. -/
  | ours (is_spill : Bool) (wreg : WalkReg) (slot : Nat) (indirect : Bool)
  /-- An `OP_lahf` instruction that is not one of our spills/restores. -/
  | lahfOp
  /-- An `OP_sahf` instruction that is not one of our spills/restores. -/
  | sahfOp
  /-- Any other instruction. -/
  | otherOp
  deriving DecidableEq, Repr

/-- The tracking state of the fault-time decode walk.  A register maps to
`MAX_SPILLS` (`MAX_SIMD_SPILLS` for SIMD) when it is not tracked as
spilled.  `last_is_spill` models the C local `is_spill`, which keeps its
value from the last classified instruction. -/
structure WalkState where
  spilled_to : GprIdx → Nat
  spilled_to_aflags : Nat
  spilled_simd_to : SimdIdx → Nat
  walk_simd_slot_use : Nat → Option SimdIdx
  prev_xax_spill : Bool
  aflags_in_xax : Bool
  last_is_spill : Bool

/-- The spill/restore bookkeeping of one walk iteration for a classified
instruction (`drreg_event_restore_state`, main if/else chain). -/
def restore_walk_track (st : WalkState) (is_spill : Bool) (wreg : WalkReg)
    (slot : Nat) (indirect : Bool) (numSimdSlots : Nat) : WalkState :=
  if is_spill then
    if slot = AFLAGS_SLOT then { st with spilled_to_aflags := slot }
    else if indirect then
      match wreg with
      | WalkReg.simd s =>
        if (st.spilled_simd_to s < numSimdSlots) &&
            !(decide (st.spilled_simd_to s = slot)) then
          st
        else
          { st with
            spilled_simd_to := fun s2 => if s2 = s then slot else st.spilled_simd_to s2,
            walk_simd_slot_use := fun i =>
              if i = slot then some s else st.walk_simd_slot_use i }
      | WalkReg.gpr _ => st
    else
      match wreg with
      | WalkReg.gpr r =>
        if (st.spilled_to r < MAX_SPILLS) && !(decide (st.spilled_to r = slot)) then st
        else { st with spilled_to := fun r2 => if r2 = r then slot else st.spilled_to r2 }
      | WalkReg.simd _ => st
  else
    if slot = AFLAGS_SLOT && decide (st.spilled_to_aflags = slot) then
      { st with spilled_to_aflags := MAX_SPILLS }
    else if indirect then
      match wreg with
      | WalkReg.simd s =>
        if (st.spilled_simd_to s = slot) then
          { st with
            spilled_simd_to := fun s2 =>
              if s2 = s then MAX_SIMD_SPILLS else st.spilled_simd_to s2,
            walk_simd_slot_use := fun i => if i = slot then none else st.walk_simd_slot_use i }
        else st
      | WalkReg.gpr _ => st
    else
      match wreg with
      | WalkReg.gpr r =>
        if (st.spilled_to r = slot) then
          { st with spilled_to := fun r2 => if r2 = r then MAX_SPILLS else st.spilled_to r2 }
        else st
      | WalkReg.simd _ => st

/-- One iteration of the fault-time decode walk
(`drreg_event_restore_state` loop body). -/
def restore_walk_step (numSimdSlots : Nat) (st : WalkState) (ev : WalkEvent) :
    WalkState :=
  match ev with
  | WalkEvent.ours is_spill wreg slot indirect =>
    let st1 := restore_walk_track st is_spill wreg slot indirect numSimdSlots
    let st2 :=
      if wreg = WalkReg.gpr XAX_IDX then
        { st1 with prev_xax_spill := true, aflags_in_xax := false }
      else st1
    { st2 with last_is_spill := is_spill }
  | WalkEvent.lahfOp =>
    if st.prev_xax_spill && st.last_is_spill then { st with aflags_in_xax := true }
    else st
  | WalkEvent.sahfOp =>
    if st.aflags_in_xax then { st with aflags_in_xax := false } else st
  | WalkEvent.otherOp => st

/-- The decode walk of `drreg_event_restore_state` from the fragment
start up to (but excluding) the faulting pc, over the classified
instruction stream. -/
def restore_walk (numSimdSlots : Nat) (st : WalkState) (evs : List WalkEvent) :
    WalkState :=
  evs.foldl (restore_walk_step numSimdSlots) st

/-- The options record a client passes to `drreg_init`
(`drreg_options_t`).  `has_simd_field` and `has_dns_field` model whether
`struct_size` covers `num_spill_simd_slots` resp. `do_not_sum_slots`;
the former field sits at a lower offset, so
`has_dns_field → has_simd_field`. -/
structure OptionsIn where
  num_spill_slots : Nat
  conservative : Bool
  has_simd_field : Bool
  num_spill_simd_slots : Nat
  has_dns_field : Bool
  do_not_sum_slots : Bool

/-- `get_updated_num_slots`: combine a previously accumulated slot count
with a newly requested one, by maximum or by sum. -/
def get_updated_num_slots (do_not_sum_slots : Bool) (cur_slots new_slots : Nat) :
    Nat :=
  if do_not_sum_slots then
    if new_slots > cur_slots then new_slots else cur_slots
  else cur_slots + new_slots

/-- The slot-combination step of `drreg_init`: honor a new or retained
`do_not_sum_slots` by taking the max instead of summing; a client whose
struct predates `do_not_sum_slots` uses the retained flag and resets it
to false afterwards. -/
def drreg_init_combine_slots (ops : Ops) (oin : OptionsIn) : Ops :=
  if oin.has_dns_field then
    { ops with
      num_spill_slots :=
        get_updated_num_slots oin.do_not_sum_slots ops.num_spill_slots
          oin.num_spill_slots,
      num_spill_simd_slots :=
        if oin.has_simd_field then
          get_updated_num_slots oin.do_not_sum_slots ops.num_spill_simd_slots
            oin.num_spill_simd_slots
        else ops.num_spill_simd_slots,
      do_not_sum_slots := oin.do_not_sum_slots }
  else
    { ops with
      num_spill_slots :=
        get_updated_num_slots ops.do_not_sum_slots ops.num_spill_slots
          oin.num_spill_slots,
      num_spill_simd_slots :=
        if oin.has_simd_field then
          get_updated_num_slots ops.do_not_sum_slots ops.num_spill_simd_slots
            oin.num_spill_simd_slots
        else ops.num_spill_simd_slots,
      do_not_sum_slots := false }

/-- `drreg_set_bb_properties`: the guard compares the current phase for
inequality with app2app and for equality with both analysis and
insertion at once; otherwise the flags are or-combined into the
per-thread block properties. -/
def drreg_set_bb_properties (phase : DrPhase) (pt : PerThread) (flags : Nat) :
    DrregStatus × PerThread :=
  if phase ≠ DrPhase.app2app ∧ phase = DrPhase.analysis ∧ phase = DrPhase.insertion then
    (.featureNotAvailable, pt)
  else
    (.success, { pt with bb_props := pt.bb_props ||| flags })

/-- Value of a GPR at the end of the raw forward-scan loop when the scan
started with the register unknown: the first event before the first
stopping instruction, or `REG_UNKNOWN` if there is none. -/
def fwd_scan_val : List Inst → GprIdx → Nat
  | [], _ => REG_UNKNOWN
  | inst :: rest, r =>
    if fwd_stop inst then REG_UNKNOWN
    else if (fwd_gpr_val inst r ≠ REG_UNKNOWN) then fwd_gpr_val inst r
    else fwd_scan_val rest r

/-- Value of a SIMD register at the end of the raw forward-scan loop when
the scan started with the register unknown. -/
def fwd_simd_scan_val : List Inst → SimdIdx → Nat
  | [], _ => SIMD_UNKNOWN
  | inst :: rest, s =>
    if fwd_stop inst then SIMD_UNKNOWN
    else
      let v := (determine_simd_liveness_state inst s SIMD_UNKNOWN).2
      if (v ≠ SIMD_UNKNOWN) then v
      else fwd_simd_scan_val rest s

/-- Specification-side description of the forward analysis result for a
GPR, following the spec's words: scan forward, stop at the first control
transfer / interrupt / syscall, record the first event (read yields Live,
exact write yields Dead), and default to Live. -/
def fwd_first_event_gpr_spec : List Inst → GprIdx → Nat
  | [], _ => REG_LIVE
  | inst :: rest, r =>
    if fwd_stop inst then REG_LIVE
    else if inst.readsReg r then REG_LIVE
    else if inst.writesExact r || inst.writesExact32 r then REG_DEAD
    else fwd_first_event_gpr_spec rest r

/-- A register record in its thread-init state (`tls_data_init` zeroes
the record and sets `native`), with an all-live live vector. -/
def defaultRegInfo : RegInfo :=
  { live := fun _ => REG_LIVE, in_use := false, app_uses := 0,
    ever_spilled := false, native := true, xchg := none, slot := 0 }

/-- A per-thread state with every register native and every slot free. -/
def basePt : PerThread :=
  { reg := fun _ => defaultRegInfo, simd_reg := fun _ => defaultRegInfo,
    aflags := defaultRegInfo, slot_use := fun _ => none,
    simd_slot_use := fun _ => none, pending_unreserved := 0,
    simd_pending_unreserved := 0, live_idx := 0, bb_props := 0,
    bb_has_internal_flow := false }

/-- Concrete options: 4 GPR slots, 2 SIMD slots, not conservative. -/
def ops0 : Ops :=
  { num_spill_slots := 4, num_spill_simd_slots := 2, conservative := false,
    do_not_sum_slots := false }

/-- Concrete state for exercising the pending-unreserved reuse path: xbx
(GPR index 3) was reserved, spilled to slot 2, and lazily unreserved, and
is live again at the current point (`live_idx = 5`). -/
def ptC3 : PerThread :=
  { basePt with
    pending_unreserved := 1,
    live_idx := 5,
    reg := fun r =>
      if r = (3 : GprIdx) then
        { defaultRegInfo with native := false, ever_spilled := true, slot := 2 }
      else defaultRegInfo,
    slot_use := fun i => if i = 2 then some (3 : GprIdx) else none }

/-- A register record for a register currently reserved in slot 2. -/
def inUseRegInfo : RegInfo :=
  { defaultRegInfo with
    in_use := true, native := false, ever_spilled := true, slot := 2 }

/-- Concrete state in which xbx (GPR index 3) is currently reserved. -/
def ptC4 : PerThread :=
  { basePt with
    reg := fun r => if r = (3 : GprIdx) then inUseRegInfo else defaultRegInfo,
    slot_use := fun i => if i = 2 then some (3 : GprIdx) else none }

/-- An allowed-set vector permitting only xbx (GPR index 3). -/
def allowC4 : GprIdx → Bool := fun r => decide (r = (3 : GprIdx))

/-- Concrete state in which aflags are currently reserved. -/
def ptC4a : PerThread :=
  { basePt with aflags := { defaultRegInfo with in_use := true, native := false } }

/-- Concrete state in which every GPR is currently reserved (spilled to
slot 2; the shared slot is irrelevant to the exercised path). -/
def ptC5 : PerThread :=
  { basePt with
    reg := fun _ =>
      { defaultRegInfo with in_use := true, native := false, slot := 2 } }

/-- An instruction with no register events at all. -/
def instNop : Inst :=
  { readsReg := fun _ => false, writesExact := fun _ => false,
    writesExact32 := fun _ => false, isCti := false, isInterrupt := false,
    isSyscall := false, isUbr := false, isCbr := false, targetIsInstr := false,
    isApp := true, arithFlags := 0, usesGpr := fun _ => 0,
    usesSimd := fun _ => 0, simdReads := fun _ => false,
    simdReadsExactZmm := fun _ => false, simdReadsExactYmm := fun _ => false,
    simdReadsExactXmm := fun _ => false, simdPartialRdZmm := fun _ => false,
    simdPartialRdYmm := fun _ => false, simdPartialRdXmm := fun _ => false,
    simdWrites := fun _ => false, simdWritesExactZmm := fun _ => false,
    simdWritesExactYmm := fun _ => false, simdWritesExactXmm := fun _ => false }

/-- An instruction that reads xax (GPR index 0) and nothing else. -/
def instReadXax : Inst :=
  { instNop with readsReg := fun r => decide (r = XAX_IDX) }

/-- A concrete fault-walk tracking state: xcx (GPR index 1) is tracked as
spilled to slot 2. -/
def stC6 : WalkState :=
  { spilled_to := fun r => if r = (1 : GprIdx) then 2 else MAX_SPILLS,
    spilled_to_aflags := MAX_SPILLS,
    spilled_simd_to := fun _ => MAX_SIMD_SPILLS,
    walk_simd_slot_use := fun _ => none,
    prev_xax_spill := false, aflags_in_xax := false, last_is_spill := false }

theorem get_updated_num_slots_true (c n : Nat) :
    get_updated_num_slots true c n = max c n := by
  have h : get_updated_num_slots true c n = if n > c then n else c := rfl
  rw [h, Nat.max_def]
  split <;> split <;> omega

theorem get_updated_num_slots_false (c n : Nat) :
    get_updated_num_slots false c n = c + n := rfl

/-- C10: `drreg_set_bb_properties` never returns `FeatureNotAvailable`:
in every basic-block phase its guard, which requires the phase to equal
both the analysis and the insertion phase at once, is unsatisfiable, so
every call or-combines the flags into the per-thread block properties and
returns Success. -/
theorem drreg_c10_set_bb_properties (phase : DrPhase) (pt : PerThread) (flags : Nat) :
    (drreg_set_bb_properties phase pt flags).1 = DrregStatus.success ∧
    ((drreg_set_bb_properties phase pt flags).2).bb_props = pt.bb_props ||| flags := by
  unfold drreg_set_bb_properties
  split
  · next h =>
    rcases h with ⟨-, h1, h2⟩
    rw [h1] at h2
    exact absurd h2 (by decide)
  · exact ⟨rfl, rfl⟩

/-- C9: on an additional `drreg_init`, when `do_not_sum_slots` is in
effect (set in the new options, or retained from a prior init because the
new options struct predates the field) the accumulated GPR and SIMD slot
counts each become the maximum of the previous and the requested count;
when it is not in effect they become the sum. -/
theorem drreg_c9_slot_combining (ops : Ops) (oin : OptionsIn)
    (hsimd : oin.has_simd_field = true) :
    ((if oin.has_dns_field then oin.do_not_sum_slots else ops.do_not_sum_slots) = true →
      (drreg_init_combine_slots ops oin).num_spill_slots =
        max ops.num_spill_slots oin.num_spill_slots ∧
      (drreg_init_combine_slots ops oin).num_spill_simd_slots =
        max ops.num_spill_simd_slots oin.num_spill_simd_slots) ∧
    ((if oin.has_dns_field then oin.do_not_sum_slots else ops.do_not_sum_slots) = false →
      (drreg_init_combine_slots ops oin).num_spill_slots =
        ops.num_spill_slots + oin.num_spill_slots ∧
      (drreg_init_combine_slots ops oin).num_spill_simd_slots =
        ops.num_spill_simd_slots + oin.num_spill_simd_slots) := by
  constructor
  · intro h
    unfold drreg_init_combine_slots
    cases hd : oin.has_dns_field
    · have h2 : ops.do_not_sum_slots = true := by simpa [hd] using h
      simp [hd, hsimd, h2, get_updated_num_slots_true]
    · have h2 : oin.do_not_sum_slots = true := by simpa [hd] using h
      simp [hd, hsimd, h2, get_updated_num_slots_true]
  · intro h
    unfold drreg_init_combine_slots
    cases hd : oin.has_dns_field
    · have h2 : ops.do_not_sum_slots = false := by simpa [hd] using h
      simp [hd, hsimd, h2, get_updated_num_slots_false]
    · have h2 : oin.do_not_sum_slots = false := by simpa [hd] using h
      simp [hd, hsimd, h2, get_updated_num_slots_false]

/-- C9 witness at a concrete prior state and client options. -/
theorem drreg_c9_witness :
    (drreg_init_combine_slots
        { num_spill_slots := 3, num_spill_simd_slots := 1, conservative := false,
          do_not_sum_slots := false }
        { num_spill_slots := 2, conservative := false, has_simd_field := true,
          num_spill_simd_slots := 5, has_dns_field := true,
          do_not_sum_slots := true }).num_spill_slots = 3 ∧
    (drreg_init_combine_slots
        { num_spill_slots := 3, num_spill_simd_slots := 1, conservative := false,
          do_not_sum_slots := false }
        { num_spill_slots := 2, conservative := false, has_simd_field := true,
          num_spill_simd_slots := 5, has_dns_field := true,
          do_not_sum_slots := true }).num_spill_simd_slots = 5 := by
  have h := drreg_c9_slot_combining
    { num_spill_slots := 3, num_spill_simd_slots := 1, conservative := false,
      do_not_sum_slots := false }
    { num_spill_slots := 2, conservative := false, has_simd_field := true,
      num_spill_simd_slots := 5, has_dns_field := true, do_not_sum_slots := true }
    rfl
  exact h.1 rfl

theorem find_free_slot_from_spec (su : Nat → Option GprIdx) :
    ∀ (n i : Nat), i + n ≤ MAX_SPILLS →
      (find_free_slot_from su i n = MAX_SPILLS →
        ∀ j, i ≤ j → j < i + n → su j ≠ none) ∧
      (find_free_slot_from su i n ≠ MAX_SPILLS →
        i ≤ find_free_slot_from su i n ∧ find_free_slot_from su i n < i + n ∧
        su (find_free_slot_from su i n) = none ∧
        ∀ j, i ≤ j → j < find_free_slot_from su i n → su j ≠ none) := by
  intro n
  induction n with
  | zero =>
    intro i _
    refine ⟨fun _ j h1 h2 => absurd (Nat.lt_of_le_of_lt h1 h2) (by omega), fun h => ?_⟩
    exact absurd rfl h
  | succ n ih =>
    intro i hle
    by_cases hs : su i = none
    · have heq : find_free_slot_from su i (n + 1) = i := by
        conv_lhs => rw [find_free_slot_from]
        rw [if_pos hs]
      constructor
      · intro hmax
        rw [heq] at hmax
        omega
      · intro _
        rw [heq]
        exact ⟨Nat.le_refl i, by omega, hs, fun j h1 h2 => absurd (Nat.lt_of_le_of_lt h1 h2) (by omega)⟩
    · have heq : find_free_slot_from su i (n + 1) = find_free_slot_from su (i + 1) n := by
        conv_lhs => rw [find_free_slot_from]
        rw [if_neg hs]
      have ih2 := ih (i + 1) (by omega)
      constructor
      · intro hmax j h1 h2
        rw [heq] at hmax
        by_cases hj : j = i
        · rw [hj]; exact hs
        · exact ih2.1 hmax j (by omega) (by omega)
      · intro hne
        rw [heq] at hne ⊢
        obtain ⟨a, b, c, d⟩ := ih2.2 hne
        refine ⟨by omega, by omega, c, fun j h1 h2 => ?_⟩
        by_cases hj : j = i
        · rw [hj]; exact hs
        · exact d j (by omega) h2

theorem find_simd_free_slot_from_spec (su : Nat → Option SimdIdx) :
    ∀ (n i : Nat), i + n ≤ MAX_SIMD_SPILLS →
      (find_simd_free_slot_from su i n = MAX_SIMD_SPILLS →
        ∀ j, i ≤ j → j < i + n → su j ≠ none) ∧
      (find_simd_free_slot_from su i n ≠ MAX_SIMD_SPILLS →
        i ≤ find_simd_free_slot_from su i n ∧
        find_simd_free_slot_from su i n < i + n ∧
        su (find_simd_free_slot_from su i n) = none ∧
        ∀ j, i ≤ j → j < find_simd_free_slot_from su i n → su j ≠ none) := by
  intro n
  induction n with
  | zero =>
    intro i _
    refine ⟨fun _ j h1 h2 => absurd (Nat.lt_of_le_of_lt h1 h2) (by omega), fun h => ?_⟩
    exact absurd rfl h
  | succ n ih =>
    intro i hle
    by_cases hs : su i = none
    · have heq : find_simd_free_slot_from su i (n + 1) = i := by
        conv_lhs => rw [find_simd_free_slot_from]
        rw [if_pos hs]
      constructor
      · intro hmax
        rw [heq] at hmax
        omega
      · intro _
        rw [heq]
        exact ⟨Nat.le_refl i, by omega, hs, fun j h1 h2 => absurd (Nat.lt_of_le_of_lt h1 h2) (by omega)⟩
    · have heq : find_simd_free_slot_from su i (n + 1) = find_simd_free_slot_from su (i + 1) n := by
        conv_lhs => rw [find_simd_free_slot_from]
        rw [if_neg hs]
      have ih2 := ih (i + 1) (by omega)
      constructor
      · intro hmax j h1 h2
        rw [heq] at hmax
        by_cases hj : j = i
        · rw [hj]; exact hs
        · exact ih2.1 hmax j (by omega) (by omega)
      · intro hne
        rw [heq] at hne ⊢
        obtain ⟨a, b, c, d⟩ := ih2.2 hne
        refine ⟨by omega, by omega, c, fun j h1 h2 => ?_⟩
        by_cases hj : j = i
        · rw [hj]; exact hs
        · exact d j (by omega) h2

theorem find_free_slot_of_free {pt : PerThread} {j : Nat} (h1 : 1 ≤ j)
    (h2 : j < MAX_SPILLS) (h3 : pt.slot_use j = none) :
    find_free_slot pt ≠ MAX_SPILLS := by
  intro hmax
  have e1 : find_free_slot pt = find_free_slot_from pt.slot_use 1 32 := rfl
  have e2 : MAX_SPILLS = 33 := rfl
  have h := (find_free_slot_from_spec pt.slot_use 32 1 (by rw [e2])).1
    (by rw [e1] at hmax; exact hmax)
  exact h j h1 (by omega) h3

/-- C7: the GPR slot allocator never returns slot 0: `find_free_slot`
returns the smallest free index in `[1, MAX_SPILLS)`, or `MAX_SPILLS`
when all of them are occupied; `find_simd_free_slot` returns the smallest
free index below `ops.num_spill_simd_slots`, or `MAX_SIMD_SPILLS` when
none is free. -/
theorem drreg_c7_slot_allocator (ops : Ops) (pt : PerThread)
    (hn : ops.num_spill_simd_slots ≤ MAX_SIMD_SPILLS) :
    (find_free_slot pt ≠ AFLAGS_SLOT) ∧
    (find_free_slot pt = MAX_SPILLS →
      ∀ j, 1 ≤ j → j < MAX_SPILLS → pt.slot_use j ≠ none) ∧
    (find_free_slot pt ≠ MAX_SPILLS →
      1 ≤ find_free_slot pt ∧ find_free_slot pt < MAX_SPILLS ∧
      pt.slot_use (find_free_slot pt) = none ∧
      ∀ j, 1 ≤ j → j < find_free_slot pt → pt.slot_use j ≠ none) ∧
    (find_simd_free_slot ops pt = MAX_SIMD_SPILLS →
      ∀ j, j < ops.num_spill_simd_slots → pt.simd_slot_use j ≠ none) ∧
    (find_simd_free_slot ops pt ≠ MAX_SIMD_SPILLS →
      find_simd_free_slot ops pt < ops.num_spill_simd_slots ∧
      pt.simd_slot_use (find_simd_free_slot ops pt) = none ∧
      ∀ j, j < find_simd_free_slot ops pt → pt.simd_slot_use j ≠ none) := by
  have e1 : find_free_slot pt = find_free_slot_from pt.slot_use 1 32 := rfl
  have e2 : MAX_SPILLS = 33 := rfl
  have e3 : find_simd_free_slot ops pt =
      find_simd_free_slot_from pt.simd_slot_use 0 ops.num_spill_simd_slots := rfl
  have e4 : AFLAGS_SLOT = 0 := rfl
  have hg := find_free_slot_from_spec pt.slot_use 32 1 (by rw [e2])
  have hs := find_simd_free_slot_from_spec pt.simd_slot_use
    ops.num_spill_simd_slots 0 (by omega)
  refine ⟨?_, ?_, ?_, ?_, ?_⟩
  · rw [e1, e4]
    by_cases hmax : find_free_slot_from pt.slot_use 1 32 = MAX_SPILLS
    · rw [hmax, e2]
      omega
    · have := (hg.2 hmax).1
      omega
  · intro hmax j hj1 hj2
    rw [e1] at hmax
    exact hg.1 hmax j hj1 (by omega)
  · intro hne
    rw [e1] at hne ⊢
    obtain ⟨a, b, c, d⟩ := hg.2 hne
    exact ⟨a, by omega, c, fun j hj1 hj2 => d j hj1 hj2⟩
  · intro hmax j hj
    rw [e3] at hmax
    exact hs.1 hmax j (Nat.zero_le j) (by omega)
  · intro hne
    rw [e3] at hne ⊢
    obtain ⟨a, b, c, d⟩ := hs.2 hne
    exact ⟨by omega, c, fun j h2 => d j (Nat.zero_le j) h2⟩

/-- C7 witness at a state with slot 1 free and two SIMD slots. -/
theorem drreg_c7_witness :
    find_free_slot basePt ≠ AFLAGS_SLOT ∧
    (find_free_slot basePt ≠ MAX_SPILLS → 1 ≤ find_free_slot basePt ∧
      find_free_slot basePt < MAX_SPILLS ∧
      basePt.slot_use (find_free_slot basePt) = none ∧
      ∀ j, 1 ≤ j → j < find_free_slot basePt → basePt.slot_use j ≠ none) := by
  have h := drreg_c7_slot_allocator ops0 basePt (by decide)
  exact ⟨h.1, h.2.2.1⟩

theorem walk_step_ours_spilled_to (numSimdSlots : Nat) (st : WalkState)
    (is_spill : Bool) (wreg : WalkReg) (slot : Nat) (indirect : Bool) :
    (restore_walk_step numSimdSlots st
      (WalkEvent.ours is_spill wreg slot indirect)).spilled_to =
    (restore_walk_track st is_spill wreg slot indirect numSimdSlots).spilled_to := by
  simp only [restore_walk_step]
  split <;> rfl

theorem track_gpr_spill (numSimdSlots : Nat) (st : WalkState) (r : GprIdx)
    (slot : Nat) (hslot : slot ≠ AFLAGS_SLOT) :
    restore_walk_track st true (WalkReg.gpr r) slot false numSimdSlots =
      (if st.spilled_to r < MAX_SPILLS ∧ st.spilled_to r ≠ slot then st
       else { st with
              spilled_to := fun r2 => if r2 = r then slot else st.spilled_to r2 }) := by
  simp only [restore_walk_track, if_neg hslot]
  simp

theorem track_gpr_restore (numSimdSlots : Nat) (st : WalkState) (r : GprIdx)
    (slot : Nat) (hslot : slot ≠ AFLAGS_SLOT) :
    restore_walk_track st false (WalkReg.gpr r) slot false numSimdSlots =
      (if st.spilled_to r = slot then
        { st with
          spilled_to := fun r2 => if r2 = r then MAX_SPILLS else st.spilled_to r2 }
       else st) := by
  simp only [restore_walk_track]
  simp [hslot]

/-- C6: during the fault-time decode walk, for a direct GPR spill or
restore observed at a non-aflags slot: a spill of a register already
tracked as spilled to a different slot leaves the whole tracking map
unchanged (tool temp-slot preservation); a spill of an untracked register
or a redundant spill to the tracked slot records that slot; and a restore
from exactly the tracked slot clears the tracking. -/
theorem drreg_c6_walk_tracking (numSimdSlots : Nat) (st : WalkState)
    (is_spill : Bool) (r : GprIdx) (slot : Nat) (hslot : slot ≠ AFLAGS_SLOT) :
    (is_spill = true → st.spilled_to r < MAX_SPILLS → st.spilled_to r ≠ slot →
      (restore_walk_step numSimdSlots st
        (WalkEvent.ours is_spill (WalkReg.gpr r) slot false)).spilled_to =
        st.spilled_to) ∧
    (is_spill = true → (¬ st.spilled_to r < MAX_SPILLS ∨ st.spilled_to r = slot) →
      (restore_walk_step numSimdSlots st
        (WalkEvent.ours is_spill (WalkReg.gpr r) slot false)).spilled_to r = slot) ∧
    (is_spill = false → st.spilled_to r = slot →
      (restore_walk_step numSimdSlots st
        (WalkEvent.ours is_spill (WalkReg.gpr r) slot false)).spilled_to r =
        MAX_SPILLS) := by
  refine ⟨?_, ?_, ?_⟩
  · intro hsp htr hne
    subst hsp
    rw [walk_step_ours_spilled_to, track_gpr_spill numSimdSlots st r slot hslot,
      if_pos ⟨htr, hne⟩]
  · intro hsp hun
    subst hsp
    rw [walk_step_ours_spilled_to, track_gpr_spill numSimdSlots st r slot hslot,
      if_neg (by intro h; rcases hun with h2 | h2; exact h2 h.1; exact h.2 h2)]
    simp
  · intro hsp htr
    subst hsp
    rw [walk_step_ours_spilled_to, track_gpr_restore numSimdSlots st r slot hslot,
      if_pos htr]
    simp

/-- C6 witness: with xcx tracked at slot 2, a spill of xcx to slot 3 is
ignored as a tool temp-slot preservation. -/
theorem drreg_c6_witness :
    (restore_walk_step 2 stC6
      (WalkEvent.ours true (WalkReg.gpr (1 : GprIdx)) 3 false)).spilled_to =
      stC6.spilled_to := by
  exact (drreg_c6_walk_tracking 2 stC6 true (1 : GprIdx) 3 (by decide)).1 rfl
    (by decide) (by decide)

theorem bb_step_snd (inst : Inst) (st : PerThread × Nat) :
    (bb_analysis_step inst st).2 = st.2 + 1 := rfl

theorem bb_step_live (inst : Inst) (pt : PerThread) (idx : Nat) (r : GprIdx)
    (j : Nat) :
    ((bb_analysis_step inst (pt, idx)).1.reg r).live j =
      if j = idx then drreg_gpr_live_val inst (instXfer inst) idx ((pt.reg r).live) r
      else (pt.reg r).live j := by
  simp only [bb_analysis_step]
  split <;> split <;> rfl

theorem bb_loop_cons (st : PerThread × Nat) (inst : Inst) (rest : List Inst) :
    bb_analysis_loop st (inst :: rest) =
      bb_analysis_loop (bb_analysis_step inst st) rest := rfl

theorem bb_loop_preserve (l : List Inst) :
    ∀ (pt : PerThread) (idx : Nat) (r : GprIdx) (j : Nat), j < idx →
      ((bb_analysis_loop (pt, idx) l).1.reg r).live j = (pt.reg r).live j := by
  induction l with
  | nil => intro pt idx r j _; rfl
  | cons inst rest ih =>
    intro pt idx r j hj
    rw [bb_loop_cons]
    have h1 := ih (bb_analysis_step inst (pt, idx)).1 (idx + 1) r j (by omega)
    have h2 : bb_analysis_step inst (pt, idx) =
        ((bb_analysis_step inst (pt, idx)).1, idx + 1) := rfl
    rw [h2] at h1 ⊢
    rw [h1, bb_step_live]
    rw [if_neg (by omega)]

theorem bb_loop_entry (l : List Inst) :
    ∀ (pt : PerThread) (idx : Nat) (i : Nat) (h : i < l.length) (r : GprIdx),
      ((l.get ⟨i, h⟩).readsReg r = true →
        ((bb_analysis_loop (pt, idx) l).1.reg r).live (idx + i) = REG_LIVE) ∧
      ((l.get ⟨i, h⟩).readsReg r = false →
        ((l.get ⟨i, h⟩).writesExact r || (l.get ⟨i, h⟩).writesExact32 r) = true →
        ((bb_analysis_loop (pt, idx) l).1.reg r).live (idx + i) = REG_DEAD) ∧
      ((l.get ⟨i, h⟩).readsReg r = false →
        ((l.get ⟨i, h⟩).writesExact r || (l.get ⟨i, h⟩).writesExact32 r) = false →
        instXfer (l.get ⟨i, h⟩) = true →
        ((bb_analysis_loop (pt, idx) l).1.reg r).live (idx + i) = REG_LIVE) ∧
      ((l.get ⟨i, h⟩).readsReg r = false →
        ((l.get ⟨i, h⟩).writesExact r || (l.get ⟨i, h⟩).writesExact32 r) = false →
        instXfer (l.get ⟨i, h⟩) = false → 0 < idx + i →
        ((bb_analysis_loop (pt, idx) l).1.reg r).live (idx + i) =
          ((bb_analysis_loop (pt, idx) l).1.reg r).live (idx + i - 1)) := by
  induction l with
  | nil => intro pt idx i h r; exact absurd h (by simp)
  | cons inst rest ih =>
    intro pt idx i h r
    cases i with
    | zero =>
      have hget : (inst :: rest).get ⟨0, h⟩ = inst := rfl
      have hpair : bb_analysis_step inst (pt, idx) =
          ((bb_analysis_step inst (pt, idx)).1, idx + 1) := rfl
      have hpres : ∀ j, j < idx + 1 →
          ((bb_analysis_loop (pt, idx) (inst :: rest)).1.reg r).live j =
            ((bb_analysis_step inst (pt, idx)).1.reg r).live j := by
        intro j hj
        rw [bb_loop_cons, hpair]
        exact bb_loop_preserve rest (bb_analysis_step inst (pt, idx)).1 (idx + 1) r j hj
      have hentry : ((bb_analysis_loop (pt, idx) (inst :: rest)).1.reg r).live idx =
          drreg_gpr_live_val inst (instXfer inst) idx ((pt.reg r).live) r := by
        rw [hpres idx (by omega), bb_step_live, if_pos rfl]
      rw [hget]
      simp only [Nat.add_zero]
      refine ⟨?_, ?_, ?_, ?_⟩
      · intro hrd
        rw [hentry]
        unfold drreg_gpr_live_val
        rw [if_pos hrd]
      · intro hrd hwr
        rw [hentry]
        unfold drreg_gpr_live_val
        rw [if_neg (by simp [hrd]), if_pos hwr]
      · intro hrd hwr hx
        rw [hentry]
        unfold drreg_gpr_live_val
        rw [if_neg (by simp [hrd]), if_neg (by simp [hwr]), if_pos hx]
      · intro hrd hwr hx hpos
        rw [hentry]
        unfold drreg_gpr_live_val
        rw [if_neg (by simp [hrd]), if_neg (by simp [hwr]), if_neg (by simp [hx]),
          if_pos hpos]
        rw [hpres (idx - 1) (by omega), bb_step_live, if_neg (by omega)]
    | succ i =>
      have hget : (inst :: rest).get ⟨i + 1, h⟩ = rest.get ⟨i, by simpa using h⟩ := rfl
      have harith : idx + (i + 1) = (idx + 1) + i := by omega
      have harith2 : idx + (i + 1) - 1 = (idx + 1) + i - 1 := by omega
      have hpair : bb_analysis_step inst (pt, idx) =
          ((bb_analysis_step inst (pt, idx)).1, idx + 1) := rfl
      have hloop : bb_analysis_loop (pt, idx) (inst :: rest) =
          bb_analysis_loop ((bb_analysis_step inst (pt, idx)).1, idx + 1) rest := by
        rw [bb_loop_cons, hpair]
      have h3 := ih (bb_analysis_step inst (pt, idx)).1 (idx + 1) i (by simpa using h) r
      rw [hget, harith, hloop]
      exact h3

theorem bb_analysis_reg_live (pt : PerThread) (bb : List Inst) (r : GprIdx)
    (j : Nat) :
    ((drreg_event_bb_analysis pt bb).reg r).live j =
      ((bb_analysis_loop
        ({ pt with
            reg := fun r2 => { pt.reg r2 with app_uses := 0 },
            simd_reg := fun s => { pt.simd_reg s with app_uses := 0 },
            bb_has_internal_flow := false }, 0) bb.reverse).1.reg r).live j := rfl

/-- C2: in the block-mode liveness analysis, the value recorded for a GPR
at reverse index `i` (instruction `i` counting from the block's last
instruction) is: Live if that instruction reads the register (including
as an addressing-mode base or index); else Dead if it writes the exact
register or, on x86-64, its exact 32-bit alias; else Live if it is a
control transfer, interrupt, or system call; else the value recorded for
the successor instruction (reverse index `i - 1`). -/
theorem drreg_c2_bb_liveness (pt : PerThread) (bb : List Inst) (r : GprIdx)
    (i : Nat) (hi : i < bb.reverse.length) :
    ((bb.reverse.get ⟨i, hi⟩).readsReg r = true →
      ((drreg_event_bb_analysis pt bb).reg r).live i = REG_LIVE) ∧
    ((bb.reverse.get ⟨i, hi⟩).readsReg r = false →
      ((bb.reverse.get ⟨i, hi⟩).writesExact r ||
        (bb.reverse.get ⟨i, hi⟩).writesExact32 r) = true →
      ((drreg_event_bb_analysis pt bb).reg r).live i = REG_DEAD) ∧
    ((bb.reverse.get ⟨i, hi⟩).readsReg r = false →
      ((bb.reverse.get ⟨i, hi⟩).writesExact r ||
        (bb.reverse.get ⟨i, hi⟩).writesExact32 r) = false →
      instXfer (bb.reverse.get ⟨i, hi⟩) = true →
      ((drreg_event_bb_analysis pt bb).reg r).live i = REG_LIVE) ∧
    ((bb.reverse.get ⟨i, hi⟩).readsReg r = false →
      ((bb.reverse.get ⟨i, hi⟩).writesExact r ||
        (bb.reverse.get ⟨i, hi⟩).writesExact32 r) = false →
      instXfer (bb.reverse.get ⟨i, hi⟩) = false → 0 < i →
      ((drreg_event_bb_analysis pt bb).reg r).live i =
        ((drreg_event_bb_analysis pt bb).reg r).live (i - 1)) := by
  have h := bb_loop_entry bb.reverse
    { pt with
      reg := fun r2 => { pt.reg r2 with app_uses := 0 },
      simd_reg := fun s => { pt.simd_reg s with app_uses := 0 },
      bb_has_internal_flow := false } 0 i hi r
  simp only [Nat.zero_add] at h
  simp only [bb_analysis_reg_live]
  exact h

/-- C2 witness: in a one-instruction block reading xax, the recorded
liveness of xax at the (only) reverse index 0 is Live. -/
theorem drreg_c2_witness :
    ((drreg_event_bb_analysis basePt [instReadXax]).reg XAX_IDX).live 0 =
      REG_LIVE := by
  exact (drreg_c2_bb_liveness basePt [instReadXax] XAX_IDX 0 (by decide)).1
    (by decide)

theorem fwd_scan_cons (inst : Inst) (rest : List Inst) (pt : PerThread)
    (acur : Nat) :
    fwd_scan (inst :: rest) pt acur =
      if fwd_stop inst then (pt, acur)
      else fwd_scan rest (fwd_scan_step inst pt) (fwd_aflags_step acur inst) := rfl

theorem fwd_step_reg_live (inst : Inst) (pt : PerThread) (r : GprIdx) :
    ((fwd_scan_step inst pt).reg r).live =
      (fwd_gpr_update inst r (pt.reg r)).live := by
  simp only [fwd_scan_step]
  split <;> rfl

theorem fwd_step_simd_live (inst : Inst) (pt : PerThread) (s : SimdIdx) :
    ((fwd_scan_step inst pt).simd_reg s).live =
      (fwd_simd_update inst s (pt.simd_reg s)).live := by
  simp only [fwd_scan_step]
  split <;> rfl

theorem fwd_step_aflags (inst : Inst) (pt : PerThread) :
    (fwd_scan_step inst pt).aflags = pt.aflags := by
  simp only [fwd_scan_step]
  split <;> rfl

theorem fwd_gpr_update_known (inst : Inst) (r : GprIdx) (ri : RegInfo)
    (h : ri.live 0 ≠ REG_UNKNOWN) : fwd_gpr_update inst r ri = ri := by
  unfold fwd_gpr_update
  rw [if_pos h]

theorem fwd_gpr_update_preserve (inst : Inst) (r : GprIdx) (ri : RegInfo)
    (j : Nat) (hj : j ≠ 0) : (fwd_gpr_update inst r ri).live j = ri.live j := by
  simp only [fwd_gpr_update]
  split
  · rfl
  · split
    · simp [hj]
    · rfl

theorem fwd_gpr_update_unknown (inst : Inst) (r : GprIdx) (ri : RegInfo)
    (h : ri.live 0 = REG_UNKNOWN) :
    (fwd_gpr_update inst r ri).live 0 =
      (if fwd_gpr_val inst r = REG_UNKNOWN then REG_UNKNOWN
       else fwd_gpr_val inst r) := by
  simp only [fwd_gpr_update]
  rw [if_neg (by simp [h])]
  by_cases h2 : fwd_gpr_val inst r = REG_UNKNOWN
  · rw [if_neg (by simpa using h2), if_pos h2]
    exact h
  · rw [if_pos (by simpa using h2), if_neg h2]
    simp

theorem fwd_simd_update_known (inst : Inst) (s : SimdIdx) (ri : RegInfo)
    (h : ri.live 0 ≠ SIMD_UNKNOWN) : fwd_simd_update inst s ri = ri := by
  unfold fwd_simd_update
  rw [if_pos h]

theorem fwd_simd_update_preserve (inst : Inst) (s : SimdIdx) (ri : RegInfo)
    (j : Nat) (hj : j ≠ 0) : (fwd_simd_update inst s ri).live j = ri.live j := by
  simp only [fwd_simd_update]
  split
  · rfl
  · split
    · simp [hj]
    · rfl

theorem fwd_simd_update_unknown (inst : Inst) (s : SimdIdx) (ri : RegInfo)
    (h : ri.live 0 = SIMD_UNKNOWN) :
    (fwd_simd_update inst s ri).live 0 =
      (if (determine_simd_liveness_state inst s SIMD_UNKNOWN).2 = SIMD_UNKNOWN
       then SIMD_UNKNOWN
       else (determine_simd_liveness_state inst s SIMD_UNKNOWN).2) := by
  simp only [fwd_simd_update]
  rw [if_neg (by simp [h])]
  by_cases h2 : (determine_simd_liveness_state inst s SIMD_UNKNOWN).2 = SIMD_UNKNOWN
  · rw [if_neg (by simpa using h2), if_pos h2]
    exact h
  · rw [if_pos (by simpa using h2), if_neg h2]
    simp

theorem fwd_scan_reg_preserve (insts : List Inst) :
    ∀ (pt : PerThread) (acur : Nat) (r : GprIdx) (j : Nat), j ≠ 0 →
      ((fwd_scan insts pt acur).1.reg r).live j = (pt.reg r).live j := by
  induction insts with
  | nil => intro pt acur r j _; rfl
  | cons inst rest ih =>
    intro pt acur r j hj
    rw [fwd_scan_cons]
    split
    · rfl
    · rw [ih (fwd_scan_step inst pt) (fwd_aflags_step acur inst) r j hj,
        fwd_step_reg_live, fwd_gpr_update_preserve inst r (pt.reg r) j hj]

theorem fwd_scan_simd_preserve (insts : List Inst) :
    ∀ (pt : PerThread) (acur : Nat) (s : SimdIdx) (j : Nat), j ≠ 0 →
      ((fwd_scan insts pt acur).1.simd_reg s).live j = (pt.simd_reg s).live j := by
  induction insts with
  | nil => intro pt acur s j _; rfl
  | cons inst rest ih =>
    intro pt acur s j hj
    rw [fwd_scan_cons]
    split
    · rfl
    · rw [ih (fwd_scan_step inst pt) (fwd_aflags_step acur inst) s j hj,
        fwd_step_simd_live, fwd_simd_update_preserve inst s (pt.simd_reg s) j hj]

theorem fwd_scan_aflags (insts : List Inst) :
    ∀ (pt : PerThread) (acur : Nat),
      (fwd_scan insts pt acur).1.aflags = pt.aflags := by
  induction insts with
  | nil => intro pt acur; rfl
  | cons inst rest ih =>
    intro pt acur
    rw [fwd_scan_cons]
    split
    · rfl
    · rw [ih (fwd_scan_step inst pt) (fwd_aflags_step acur inst),
        fwd_step_aflags]

theorem fwd_scan_reg_known (insts : List Inst) :
    ∀ (pt : PerThread) (acur : Nat) (r : GprIdx),
      (pt.reg r).live 0 ≠ REG_UNKNOWN →
      ((fwd_scan insts pt acur).1.reg r).live 0 = (pt.reg r).live 0 := by
  induction insts with
  | nil => intro pt acur r _; rfl
  | cons inst rest ih =>
    intro pt acur r h
    rw [fwd_scan_cons]
    split
    · rfl
    · have hstep : ((fwd_scan_step inst pt).reg r).live 0 = (pt.reg r).live 0 := by
        rw [fwd_step_reg_live, fwd_gpr_update_known inst r (pt.reg r) h]
      rw [ih (fwd_scan_step inst pt) (fwd_aflags_step acur inst) r (by rw [hstep]; exact h),
        hstep]

theorem fwd_scan_simd_known (insts : List Inst) :
    ∀ (pt : PerThread) (acur : Nat) (s : SimdIdx),
      (pt.simd_reg s).live 0 ≠ SIMD_UNKNOWN →
      ((fwd_scan insts pt acur).1.simd_reg s).live 0 = (pt.simd_reg s).live 0 := by
  induction insts with
  | nil => intro pt acur s _; rfl
  | cons inst rest ih =>
    intro pt acur s h
    rw [fwd_scan_cons]
    split
    · rfl
    · have hstep : ((fwd_scan_step inst pt).simd_reg s).live 0 =
          (pt.simd_reg s).live 0 := by
        rw [fwd_step_simd_live, fwd_simd_update_known inst s (pt.simd_reg s) h]
      rw [ih (fwd_scan_step inst pt) (fwd_aflags_step acur inst) s (by rw [hstep]; exact h),
        hstep]

theorem fwd_scan_reg_unknown (insts : List Inst) :
    ∀ (pt : PerThread) (acur : Nat) (r : GprIdx),
      (pt.reg r).live 0 = REG_UNKNOWN →
      ((fwd_scan insts pt acur).1.reg r).live 0 =
        (if fwd_scan_val insts r = REG_UNKNOWN then REG_UNKNOWN
         else fwd_scan_val insts r) := by
  induction insts with
  | nil =>
    intro pt acur r h
    simpa [fwd_scan_val, fwd_scan] using h
  | cons inst rest ih =>
    intro pt acur r h
    rw [fwd_scan_cons]
    by_cases hstop : fwd_stop inst = true
    · rw [if_pos hstop]
      have hval : fwd_scan_val (inst :: rest) r = REG_UNKNOWN := by
        conv_lhs => rw [fwd_scan_val]
        rw [if_pos hstop]
      rw [hval, if_pos rfl]
      exact h
    · rw [if_neg hstop]
      by_cases hv : fwd_gpr_val inst r = REG_UNKNOWN
      · have hval : fwd_scan_val (inst :: rest) r = fwd_scan_val rest r := by
          conv_lhs => rw [fwd_scan_val]
          rw [if_neg hstop, if_neg (by simpa using hv)]
        have h0 : ((fwd_scan_step inst pt).reg r).live 0 = REG_UNKNOWN := by
          rw [fwd_step_reg_live, fwd_gpr_update_unknown inst r (pt.reg r) h, if_pos hv]
        rw [hval]
        exact ih (fwd_scan_step inst pt) (fwd_aflags_step acur inst) r h0
      · have hval : fwd_scan_val (inst :: rest) r = fwd_gpr_val inst r := by
          conv_lhs => rw [fwd_scan_val]
          rw [if_neg hstop, if_pos (by simpa using hv)]
        have h0 : ((fwd_scan_step inst pt).reg r).live 0 = fwd_gpr_val inst r := by
          rw [fwd_step_reg_live, fwd_gpr_update_unknown inst r (pt.reg r) h, if_neg hv]
        rw [hval, if_neg hv,
          fwd_scan_reg_known rest (fwd_scan_step inst pt)
            (fwd_aflags_step acur inst) r (by rw [h0]; exact hv), h0]

theorem fwd_scan_simd_unknown (insts : List Inst) :
    ∀ (pt : PerThread) (acur : Nat) (s : SimdIdx),
      (pt.simd_reg s).live 0 = SIMD_UNKNOWN →
      ((fwd_scan insts pt acur).1.simd_reg s).live 0 =
        (if fwd_simd_scan_val insts s = SIMD_UNKNOWN then SIMD_UNKNOWN
         else fwd_simd_scan_val insts s) := by
  induction insts with
  | nil =>
    intro pt acur s h
    simpa [fwd_simd_scan_val, fwd_scan] using h
  | cons inst rest ih =>
    intro pt acur s h
    rw [fwd_scan_cons]
    by_cases hstop : fwd_stop inst = true
    · rw [if_pos hstop]
      have hval : fwd_simd_scan_val (inst :: rest) s = SIMD_UNKNOWN := by
        conv_lhs => rw [fwd_simd_scan_val]
        rw [if_pos hstop]
      rw [hval, if_pos rfl]
      exact h
    · rw [if_neg hstop]
      by_cases hv : (determine_simd_liveness_state inst s SIMD_UNKNOWN).2 = SIMD_UNKNOWN
      · have hval : fwd_simd_scan_val (inst :: rest) s = fwd_simd_scan_val rest s := by
          conv_lhs => rw [fwd_simd_scan_val]
          rw [if_neg hstop]
          simp only [hv]
          rw [if_neg (by simp)]
        have h0 : ((fwd_scan_step inst pt).simd_reg s).live 0 = SIMD_UNKNOWN := by
          rw [fwd_step_simd_live, fwd_simd_update_unknown inst s (pt.simd_reg s) h,
            if_pos hv]
        rw [hval]
        exact ih (fwd_scan_step inst pt) (fwd_aflags_step acur inst) s h0
      · have hval : fwd_simd_scan_val (inst :: rest) s =
            (determine_simd_liveness_state inst s SIMD_UNKNOWN).2 := by
          conv_lhs => rw [fwd_simd_scan_val]
          rw [if_neg hstop, if_pos (by simpa using hv)]
        have h0 : ((fwd_scan_step inst pt).simd_reg s).live 0 =
            (determine_simd_liveness_state inst s SIMD_UNKNOWN).2 := by
          rw [fwd_step_simd_live, fwd_simd_update_unknown inst s (pt.simd_reg s) h,
            if_neg hv]
        rw [hval, if_neg hv,
          fwd_scan_simd_known rest (fwd_scan_step inst pt)
            (fwd_aflags_step acur inst) s (by rw [h0]; exact hv), h0]

theorem fwd_scan_val_spec (r : GprIdx) :
    ∀ (insts : List Inst),
      fwd_first_event_gpr_spec insts r =
        (if fwd_scan_val insts r = REG_UNKNOWN then REG_LIVE
         else fwd_scan_val insts r) := by
  intro insts
  induction insts with
  | nil => simp [fwd_first_event_gpr_spec, fwd_scan_val]
  | cons inst rest ih =>
    by_cases hstop : fwd_stop inst = true
    · have h1 : fwd_first_event_gpr_spec (inst :: rest) r = REG_LIVE := by
        conv_lhs => rw [fwd_first_event_gpr_spec]
        rw [if_pos hstop]
      have h2 : fwd_scan_val (inst :: rest) r = REG_UNKNOWN := by
        conv_lhs => rw [fwd_scan_val]
        rw [if_pos hstop]
      rw [h1, h2, if_pos rfl]
    · by_cases hrd : inst.readsReg r = true
      · have h1 : fwd_first_event_gpr_spec (inst :: rest) r = REG_LIVE := by
          conv_lhs => rw [fwd_first_event_gpr_spec]
          rw [if_neg hstop, if_pos hrd]
        have hv : fwd_gpr_val inst r = REG_LIVE := by
          unfold fwd_gpr_val
          rw [if_pos hrd]
        have h2 : fwd_scan_val (inst :: rest) r = REG_LIVE := by
          conv_lhs => rw [fwd_scan_val]
          rw [if_neg hstop, if_pos (by rw [hv]; decide), hv]
        rw [h1, h2, if_neg (by decide)]
      · by_cases hwr : (inst.writesExact r || inst.writesExact32 r) = true
        · have h1 : fwd_first_event_gpr_spec (inst :: rest) r = REG_DEAD := by
            conv_lhs => rw [fwd_first_event_gpr_spec]
            rw [if_neg hstop, if_neg hrd, if_pos hwr]
          have hv : fwd_gpr_val inst r = REG_DEAD := by
            unfold fwd_gpr_val
            rw [if_neg hrd, if_pos hwr]
          have h2 : fwd_scan_val (inst :: rest) r = REG_DEAD := by
            conv_lhs => rw [fwd_scan_val]
            rw [if_neg hstop, if_pos (by rw [hv]; decide), hv]
          rw [h1, h2, if_neg (by decide)]
        · have h1 : fwd_first_event_gpr_spec (inst :: rest) r =
              fwd_first_event_gpr_spec rest r := by
            conv_lhs => rw [fwd_first_event_gpr_spec]
            rw [if_neg hstop, if_neg hrd, if_neg hwr]
          have hv : fwd_gpr_val inst r = REG_UNKNOWN := by
            unfold fwd_gpr_val
            rw [if_neg hrd, if_neg hwr]
          have h2 : fwd_scan_val (inst :: rest) r = fwd_scan_val rest r := by
            conv_lhs => rw [fwd_scan_val]
            rw [if_neg hstop, if_neg (by rw [hv]; simp)]
          rw [h1, h2]
          exact ih

theorem fwd_analysis_reg_proj (pt : PerThread) (insts : List Inst) (r : GprIdx) :
    (drreg_forward_analysis pt insts).reg r =
      (if ((fwd_scan insts (fwd_analysis_init pt) 0).1.reg r).live 0 = REG_UNKNOWN
       then { (fwd_scan insts (fwd_analysis_init pt) 0).1.reg r with
              live := fun j => if j = 0 then REG_LIVE
                else ((fwd_scan insts (fwd_analysis_init pt) 0).1.reg r).live j }
       else (fwd_scan insts (fwd_analysis_init pt) 0).1.reg r) := rfl

theorem fwd_analysis_simd_proj (pt : PerThread) (insts : List Inst) (s : SimdIdx) :
    (drreg_forward_analysis pt insts).simd_reg s =
      (if ((fwd_scan insts (fwd_analysis_init pt) 0).1.simd_reg s).live 0 = SIMD_UNKNOWN
       then { (fwd_scan insts (fwd_analysis_init pt) 0).1.simd_reg s with
              live := fun j => if j = 0 then SIMD_ZMM_LIVE
                else ((fwd_scan insts (fwd_analysis_init pt) 0).1.simd_reg s).live j }
       else (fwd_scan insts (fwd_analysis_init pt) 0).1.simd_reg s) := rfl

theorem fwd_analysis_aflags_proj (pt : PerThread) (insts : List Inst) :
    (drreg_forward_analysis pt insts).aflags =
      { (fwd_scan insts (fwd_analysis_init pt) 0).1.aflags with
        live := fun j => if j = 0 then
            maskAndNot EFLAGS_READ_ARITH
              (EFLAGS_WRITE_TO_READ (fwd_scan insts (fwd_analysis_init pt) 0).2)
          else ((fwd_scan insts (fwd_analysis_init pt) 0).1.aflags).live j } := rfl

theorem fwd_init_reg_live (pt : PerThread) (r : GprIdx) (j : Nat) :
    ((fwd_analysis_init pt).reg r).live j =
      if j = 0 then REG_UNKNOWN else (pt.reg r).live j := rfl

theorem fwd_init_simd_live (pt : PerThread) (s : SimdIdx) (j : Nat) :
    ((fwd_analysis_init pt).simd_reg s).live j =
      if j = 0 then SIMD_UNKNOWN else (pt.simd_reg s).live j := rfl

theorem fwd_init_aflags (pt : PerThread) :
    (fwd_analysis_init pt).aflags = pt.aflags := rfl

theorem fwd_analysis_preserve_reg (pt : PerThread) (insts : List Inst)
    (r : GprIdx) (j : Nat) (hj : j ≠ 0) :
    ((drreg_forward_analysis pt insts).reg r).live j = (pt.reg r).live j := by
  have hscan : ((fwd_scan insts (fwd_analysis_init pt) 0).1.reg r).live j =
      (pt.reg r).live j := by
    rw [fwd_scan_reg_preserve insts (fwd_analysis_init pt) 0 r j hj,
      fwd_init_reg_live, if_neg hj]
  rw [fwd_analysis_reg_proj]
  split
  · simp only [hj, if_false]
    exact hscan
  · exact hscan

theorem fwd_analysis_preserve_simd (pt : PerThread) (insts : List Inst)
    (s : SimdIdx) (j : Nat) (hj : j ≠ 0) :
    ((drreg_forward_analysis pt insts).simd_reg s).live j =
      (pt.simd_reg s).live j := by
  have hscan : ((fwd_scan insts (fwd_analysis_init pt) 0).1.simd_reg s).live j =
      (pt.simd_reg s).live j := by
    rw [fwd_scan_simd_preserve insts (fwd_analysis_init pt) 0 s j hj,
      fwd_init_simd_live, if_neg hj]
  rw [fwd_analysis_simd_proj]
  split
  · simp only [hj, if_false]
    exact hscan
  · exact hscan

theorem fwd_analysis_preserve_aflags (pt : PerThread) (insts : List Inst)
    (j : Nat) (hj : j ≠ 0) :
    ((drreg_forward_analysis pt insts).aflags).live j = pt.aflags.live j := by
  rw [fwd_analysis_aflags_proj]
  simp only [hj, if_false]
  rw [fwd_scan_aflags insts (fwd_analysis_init pt) 0, fwd_init_aflags]

theorem fwd_scan_takeWhile (insts : List Inst) :
    ∀ (pt : PerThread) (acur : Nat),
      fwd_scan insts pt acur =
        fwd_scan (insts.takeWhile (fun i => !fwd_stop i)) pt acur := by
  induction insts with
  | nil => intro pt acur; rfl
  | cons inst rest ih =>
    intro pt acur
    rw [List.takeWhile_cons]
    by_cases hstop : fwd_stop inst = true
    · rw [fwd_scan_cons, if_pos hstop]
      simp [hstop, fwd_scan]
    · rw [fwd_scan_cons, if_neg hstop]
      simp only [hstop, Bool.not_false, if_true]
      rw [fwd_scan_cons, if_neg hstop]
      exact ih (fwd_scan_step inst pt) (fwd_aflags_step acur inst)

theorem fwd_analysis_takeWhile (pt : PerThread) (insts : List Inst) :
    drreg_forward_analysis pt insts =
      drreg_forward_analysis pt (insts.takeWhile (fun i => !fwd_stop i)) := by
  simp only [drreg_forward_analysis]
  rw [← fwd_scan_takeWhile insts (fwd_analysis_init pt) 0]

theorem fwd_analysis_gpr0 (pt : PerThread) (insts : List Inst) (r : GprIdx) :
    ((drreg_forward_analysis pt insts).reg r).live 0 =
      fwd_first_event_gpr_spec insts r := by
  have h0 : ((fwd_analysis_init pt).reg r).live 0 = REG_UNKNOWN := rfl
  have hscan := fwd_scan_reg_unknown insts (fwd_analysis_init pt) 0 r h0
  rw [fwd_analysis_reg_proj, fwd_scan_val_spec]
  by_cases hval : fwd_scan_val insts r = REG_UNKNOWN
  · rw [if_pos (by rw [hscan, if_pos hval]), if_pos hval]
    simp
  · rw [if_neg (by rw [hscan, if_neg hval]; exact hval), hscan, if_neg hval,
      if_neg hval]

theorem fwd_analysis_simd0 (pt : PerThread) (insts : List Inst) (s : SimdIdx) :
    ((drreg_forward_analysis pt insts).simd_reg s).live 0 =
      (if fwd_simd_scan_val insts s = SIMD_UNKNOWN then SIMD_ZMM_LIVE
       else fwd_simd_scan_val insts s) := by
  have h0 : ((fwd_analysis_init pt).simd_reg s).live 0 = SIMD_UNKNOWN := rfl
  have hscan := fwd_scan_simd_unknown insts (fwd_analysis_init pt) 0 s h0
  rw [fwd_analysis_simd_proj]
  by_cases hval : fwd_simd_scan_val insts s = SIMD_UNKNOWN
  · rw [if_pos (by rw [hscan, if_pos hval]), if_pos hval]
    simp
  · rw [if_neg (by rw [hscan, if_neg hval]; exact hval), hscan, if_neg hval,
      if_neg hval]

/-- C8: `drreg_forward_analysis` writes only index 0 of every live vector
(GPR, SIMD, aflags); its scan stops at the first control transfer,
interrupt, or system call, so the result only depends on the
instructions before that point; for each GPR it records the first event
encountered — a read yields Live, an exact write (or, on x86-64, an
exact write of the 32-bit alias) yields Dead — defaulting to Live when
no event was seen; and a SIMD register whose scan state remained Unknown
is set to ZMM-Live. -/
theorem drreg_c8_forward_analysis (pt : PerThread) (insts : List Inst)
    (r : GprIdx) (s : SimdIdx) (j : Nat) (hj : j ≠ 0) :
    ((drreg_forward_analysis pt insts).reg r).live j = (pt.reg r).live j ∧
    ((drreg_forward_analysis pt insts).simd_reg s).live j =
      (pt.simd_reg s).live j ∧
    ((drreg_forward_analysis pt insts).aflags).live j = pt.aflags.live j ∧
    drreg_forward_analysis pt insts =
      drreg_forward_analysis pt (insts.takeWhile (fun i => !fwd_stop i)) ∧
    ((drreg_forward_analysis pt insts).reg r).live 0 =
      fwd_first_event_gpr_spec insts r ∧
    ((drreg_forward_analysis pt insts).simd_reg s).live 0 =
      (if fwd_simd_scan_val insts s = SIMD_UNKNOWN then SIMD_ZMM_LIVE
       else fwd_simd_scan_val insts s) :=
  ⟨fwd_analysis_preserve_reg pt insts r j hj,
   fwd_analysis_preserve_simd pt insts s j hj,
   fwd_analysis_preserve_aflags pt insts j hj,
   fwd_analysis_takeWhile pt insts,
   fwd_analysis_gpr0 pt insts r,
   fwd_analysis_simd0 pt insts s⟩

/-- C8 witness: forward analysis over a single xax-reading instruction
leaves index 1 untouched and records Live for xax at index 0. -/
theorem drreg_c8_witness :
    ((drreg_forward_analysis basePt [instReadXax]).reg XAX_IDX).live 1 =
      (basePt.reg XAX_IDX).live 1 ∧
    ((drreg_forward_analysis basePt [instReadXax]).reg XAX_IDX).live 0 =
      fwd_first_event_gpr_spec [instReadXax] XAX_IDX := by
  have h := drreg_c8_forward_analysis basePt [instReadXax] XAX_IDX 0 1 (by decide)
  exact ⟨h.1, h.2.2.2.2.1⟩

theorem updReg_same (pt : PerThread) (r : GprIdx) (f : RegInfo → RegInfo) :
    (updReg pt r f).reg r = f (pt.reg r) := by
  simp [updReg]

theorem updReg_slot_use (pt : PerThread) (r : GprIdx) (f : RegInfo → RegInfo) :
    (updReg pt r f).slot_use = pt.slot_use := rfl

theorem updReg_live_idx (pt : PerThread) (r : GprIdx) (f : RegInfo → RegInfo) :
    (updReg pt r f).live_idx = pt.live_idx := rfl

theorem updReg_aflags (pt : PerThread) (r : GprIdx) (f : RegInfo → RegInfo) :
    (updReg pt r f).aflags = pt.aflags := rfl

theorem updSlot_same (su : Nat → Option GprIdx) (slot : Nat) (v : Option GprIdx) :
    updSlot su slot v slot = v := by
  simp [updSlot]

theorem updSlot_other (su : Nat → Option GprIdx) (slot : Nat) (v : Option GprIdx)
    (i : Nat) (h : i ≠ slot) : updSlot su slot v i = su i := by
  simp [updSlot, h]

theorem pick_pending_some {pt : PerThread} {allowed : Option (GprIdx → Bool)}
    {only : Bool} {r : GprIdx}
    (h : drreg_pick_pending pt allowed only = some r) :
    pendingReuseCond pt allowed only r = true := by
  unfold drreg_pick_pending at h
  split at h
  · exact List.find?_some h
  · exact absurd h (by simp)

theorem pick_pending_none_of {pt : PerThread} {allowed : Option (GprIdx → Bool)}
    {only : Bool} (h : ∀ r, pendingReuseCond pt allowed only r = false) :
    drreg_pick_pending pt allowed only = none := by
  unfold drreg_pick_pending
  split
  · apply List.find?_eq_none.mpr
    intro r _
    simp [h r]
  · rfl

theorem find_loop_inl {pt : PerThread} {allowed : Option (GprIdx → Bool)}
    {only : Bool} :
    ∀ (l : List GprIdx) (best : Option GprIdx) (m : Nat) (r : GprIdx),
      drreg_find_dead_or_best_loop pt allowed only l best m = Sum.inl r →
      (pt.reg r).in_use = false ∧ r ≠ XSP_IDX ∧ allowedAt allowed r = true ∧
        (pt.reg r).live pt.live_idx = REG_DEAD := by
  intro l
  induction l with
  | nil => intro best m r h; exact absurd h (by simp [drreg_find_dead_or_best_loop])
  | cons a rest ih =>
    intro best m r h
    unfold drreg_find_dead_or_best_loop at h
    split at h
    · exact ih best m r h
    · split at h
      · exact ih best m r h
      · split at h
        · exact ih best m r h
        · split at h
          · next h1 h2 h3 h4 =>
            cases h
            refine ⟨?_, h2, ?_, h4⟩
            · cases hu : (pt.reg a).in_use
              · rfl
              · exact absurd hu h1
            · cases ha : allowedAt allowed a
              · exact absurd (by simp [ha]) h3
              · rfl
          · split at h
            · exact ih best m r h
            · split at h
              · exact ih (some a) (pt.reg a).app_uses r h
              · exact ih best m r h

theorem find_loop_only_inr {pt : PerThread} {allowed : Option (GprIdx → Bool)} :
    ∀ (l : List GprIdx) (best : Option GprIdx) (m : Nat) (b : Option GprIdx),
      drreg_find_dead_or_best_loop pt allowed true l best m = Sum.inr b →
      b = best := by
  intro l
  induction l with
  | nil =>
    intro best m b h
    simp [drreg_find_dead_or_best_loop] at h
    exact h.symm
  | cons a rest ih =>
    intro best m b h
    unfold drreg_find_dead_or_best_loop at h
    split at h
    · exact ih best m b h
    · split at h
      · exact ih best m b h
      · split at h
        · exact ih best m b h
        · split at h
          · exact absurd h (by simp)
          · split at h
            · exact ih best m b h
            · next h5 => exact absurd rfl h5

theorem find_loop_all_blocked {pt : PerThread} {alw : GprIdx → Bool} {only : Bool}
    (hall : ∀ r, alw r = true → (pt.reg r).in_use = true) :
    ∀ (l : List GprIdx) (best : Option GprIdx) (m : Nat),
      drreg_find_dead_or_best_loop pt (some alw) only l best m = Sum.inr best := by
  intro l
  induction l with
  | nil => intro best m; rfl
  | cons a rest ih =>
    intro best m
    unfold drreg_find_dead_or_best_loop
    by_cases hu : (pt.reg a).in_use = true
    · rw [if_pos hu]
      exact ih best m
    · rw [if_neg hu]
      by_cases hx : a = XSP_IDX
      · rw [if_pos hx]
        exact ih best m
      · rw [if_neg hx]
        have ha : allowedAt (some alw) a = false := by
          cases h2 : alw a
          · simp [allowedAt, h2]
          · exact absurd (hall a h2) hu
        rw [if_pos (by simp [ha])]
        exact ih best m

theorem finish_reserve_status (ops : Ops) (pt : PerThread) (ems : List Emit)
    (r : GprIdx) (slot : Nat) (a : Bool) :
    (drreg_finish_reserve ops pt ems r slot a).1 = .success := rfl

theorem finish_reserve_out (ops : Ops) (pt : PerThread) (ems : List Emit)
    (r : GprIdx) (slot : Nat) (a : Bool) :
    (drreg_finish_reserve ops pt ems r slot a).2.2.2 = some r := rfl

theorem finish_reserve_slot (ops : Ops) (pt : PerThread) (ems : List Emit)
    (r : GprIdx) (slot : Nat) (a : Bool) :
    ((drreg_finish_reserve ops pt ems r slot a).2.1.reg r).slot = slot := by
  simp only [drreg_finish_reserve]
  rw [updReg_same]

theorem finish_reserve_live (ops : Ops) (pt : PerThread) (ems : List Emit)
    (r : GprIdx) (slot : Nat)
    (hcons : ops.conservative = false)
    (hlive : (pt.reg r).live pt.live_idx = REG_LIVE) :
    (drreg_finish_reserve ops pt ems r slot false).2.2.1 =
        ems ++ [Emit.store r slot] ∧
      ((drreg_finish_reserve ops pt ems r slot false).2.1.reg r).ever_spilled =
        true := by
  have hl2 : ((updReg pt r (fun ri => { ri with in_use := true })).reg r).live
      (updReg pt r (fun ri => { ri with in_use := true })).live_idx = REG_LIVE := by
    rw [updReg_same]
    exact hlive
  constructor
  · simp only [drreg_finish_reserve, hcons, hl2]
    simp [spill_reg_directly]
  · simp only [drreg_finish_reserve, hcons, hl2]
    simp only [Bool.not_false, if_true, decide_eq_true_eq, if_pos hl2,
      Bool.false_or]
    rw [updReg_same, updReg_same]

theorem finish_reserve_dead (ops : Ops) (pt : PerThread) (ems : List Emit)
    (r : GprIdx) (slot : Nat)
    (hcons : ops.conservative = false)
    (hdead : (pt.reg r).live pt.live_idx = REG_DEAD) :
    (drreg_finish_reserve ops pt ems r slot false).2.2.1 = ems ∧
      ((drreg_finish_reserve ops pt ems r slot false).2.1.reg r).ever_spilled =
        false ∧
      (drreg_finish_reserve ops pt ems r slot false).2.1.slot_use slot =
        some r := by
  have hl2 : ¬ ((updReg pt r (fun ri => { ri with in_use := true })).reg r).live
      (updReg pt r (fun ri => { ri with in_use := true })).live_idx = REG_LIVE := by
    rw [updReg_same]
    show ¬ (pt.reg r).live pt.live_idx = REG_LIVE
    rw [hdead]
    simp [REG_DEAD, REG_LIVE]
  refine ⟨?_, ?_, ?_⟩
  · simp only [drreg_finish_reserve, hcons, Bool.not_false, if_true,
      Bool.false_or, decide_eq_true_eq, if_neg hl2]
    simp
  · simp only [drreg_finish_reserve, hcons, Bool.not_false, if_true,
      Bool.false_or, decide_eq_true_eq, if_neg hl2]
    rw [updReg_same, updReg_same]
  · simp only [drreg_finish_reserve, hcons, Bool.not_false, if_true,
      Bool.false_or, decide_eq_true_eq, if_neg hl2]
    rw [updReg_slot_use, updReg_slot_use]
    exact updSlot_same _ _ _

theorem no_store_append {l1 l2 : List Emit}
    (h1 : ∀ e ∈ l1, e.isStore = false) (h2 : ∀ e ∈ l2, e.isStore = false) :
    ∀ e ∈ l1 ++ l2, e.isStore = false := by
  intro e he
  rcases List.mem_append.mp he with h | h
  · exact h1 e h
  · exact h2 e h

theorem no_store_cmp_sahf (b : Bool) :
    ∀ e ∈ ((if b then [Emit.cmpAlImm] else ([] : List Emit)) ++ [Emit.sahf]),
      e.isStore = false := by
  cases b <;> intro e he <;> simp at he
  · subst he; rfl
  · rcases he with rfl | rfl <;> rfl

theorem restore_aflags_xchg_props (fuel : Nat) (ops : Ops) (phase : DrPhase)
    (pt : PerThread) (release : Bool) (hx : pt.aflags.xchg = some XAX_IDX) :
    (∀ r2, (((drreg_restore_aflags fuel ops phase pt release).2.1).reg r2).live =
        (pt.reg r2).live) ∧
    (drreg_restore_aflags fuel ops phase pt release).2.1.live_idx = pt.live_idx ∧
    (∀ r2, (((drreg_restore_aflags fuel ops phase pt release).2.1).reg r2).slot =
        (pt.reg r2).slot) ∧
    (drreg_restore_aflags fuel ops phase pt release).2.1.slot_use = pt.slot_use ∧
    (∀ e ∈ (drreg_restore_aflags fuel ops phase pt release).2.2,
        e.isStore = false) := by
  cases fuel with
  | zero =>
    refine ⟨fun r2 => rfl, rfl, fun r2 => rfl, rfl, ?_⟩
    intro e he
    simp [drreg_restore_aflags] at he
  | succ f =>
    by_cases hnat : pt.aflags.native = true
    · simp only [drreg_restore_aflags, hnat, reduceIte]
      refine ⟨fun r2 => by trivial, by trivial, fun r2 => by trivial,
        by trivial, ?_⟩
      intro e he
      simp at he
    · cases release with
      | false =>
        simp only [drreg_restore_aflags, hnat, hx, reduceCtorEq, reduceIte,
          List.nil_append]
        refine ⟨fun r2 => by trivial, by trivial, fun r2 => by trivial,
          by trivial, ?_⟩
        exact no_store_cmp_sahf _
      | true =>
        simp only [drreg_restore_aflags, hnat, hx, reduceCtorEq, reduceIte,
          List.nil_append]
        refine ⟨?_, by trivial, ?_, by trivial, ?_⟩
        · intro r2
          simp only [updReg]
          split <;> rfl
        · intro r2
          simp only [updReg]
          split <;> rfl
        · exact no_store_cmp_sahf _

theorem move_rescue_props (fuel : Nat) (ops : Ops) (phase : DrPhase)
    (pt : PerThread)
    (hin : pt.aflags.in_use = false) (hx : pt.aflags.xchg = some XAX_IDX) :
    (∀ r2,
      (((drreg_move_aflags_from_reg (fuel + 1) ops phase pt true).1).reg r2).live =
        (pt.reg r2).live) ∧
    (drreg_move_aflags_from_reg (fuel + 1) ops phase pt true).1.live_idx =
        pt.live_idx ∧
    (drreg_move_aflags_from_reg (fuel + 1) ops phase pt true).1.slot_use
        ((pt.reg XAX_IDX).slot) = none ∧
    (∀ e ∈ (drreg_move_aflags_from_reg (fuel + 1) ops phase pt true).2,
        e.isStore = false) := by
  obtain ⟨h1, h2, h3, h4, h5⟩ :=
    restore_aflags_xchg_props fuel ops phase pt true hx
  cases hnat : pt.aflags.native with
  | true =>
    simp only [drreg_move_aflags_from_reg, hin, hnat, Bool.not_true,
      Bool.not_false, Bool.or_false, Bool.false_eq_true, eq_self_iff_true,
      if_true, if_false, restore_reg_directly]
    refine ⟨?_, ?_, ?_, ?_⟩
    · intro r2
      simp only [updReg]
      split <;> split <;> rfl
    · split <;> rfl
    · simp only [updReg]
      split <;> exact updSlot_same _ _ _
    · intro e he
      split at he
      · simp at he
        subst he
        rfl
      · simp at he
  | false =>
    simp only [drreg_move_aflags_from_reg, hin, hnat, Bool.not_true,
      Bool.not_false, Bool.or_false, Bool.false_eq_true, eq_self_iff_true,
      if_true, if_false, restore_reg_directly]
    refine ⟨?_, ?_, ?_, ?_⟩
    · intro r2
      simp only [updReg]
      split <;> split <;> exact h1 r2
    · split <;> exact h2
    · simp only [updReg]
      rw [← h3 XAX_IDX]
      split <;> exact updSlot_same _ _ _
    · intro e he
      rcases List.mem_append.mp he with h | h
      · exact h5 e h
      · split at h
        · simp at h
          subst h
          rfl
        · simp at h

/-- C1: in a GPR reservation through `drreg_reserve_gpr_internal` in which
no pending-unreserved register is reused (the first selection loop finds
nothing) and the `conservative` option is unset, if the chosen register's
liveness entry at the reservation point is Live the call emits a spill
store into the assigned slot and sets the register's `ever_spilled` flag;
if the entry is Dead the call emits no store, leaves `ever_spilled` false,
and still binds `slot_use` at the assigned slot to the register. -/
theorem drreg_c1_reserve_spill (fuel : Nat) (ops : Ops) (phase : DrPhase)
    (pt : PerThread) (allowed : Option (GprIdx → Bool)) (only : Bool)
    (r : GprIdx)
    (hcons : ops.conservative = false)
    (hpend : drreg_pick_pending pt allowed only = none)
    (hout : (drreg_reserve_gpr_internal (fuel + 1) ops phase pt allowed
      only).2.2.2 = some r) :
    ((pt.reg r).live pt.live_idx = REG_LIVE →
      Emit.store r
          ((drreg_reserve_gpr_internal (fuel + 1) ops phase pt allowed
            only).2.1.reg r).slot ∈
          (drreg_reserve_gpr_internal (fuel + 1) ops phase pt allowed
            only).2.2.1 ∧
        ((drreg_reserve_gpr_internal (fuel + 1) ops phase pt allowed
          only).2.1.reg r).ever_spilled = true) ∧
    ((pt.reg r).live pt.live_idx = REG_DEAD →
      (∀ e ∈ (drreg_reserve_gpr_internal (fuel + 1) ops phase pt allowed
          only).2.2.1, e.isStore = false) ∧
        ((drreg_reserve_gpr_internal (fuel + 1) ops phase pt allowed
          only).2.1.reg r).ever_spilled = false ∧
        (drreg_reserve_gpr_internal (fuel + 1) ops phase pt allowed
          only).2.1.slot_use
          ((drreg_reserve_gpr_internal (fuel + 1) ops phase pt allowed
            only).2.1.reg r).slot = some r) := by
  have hunf : drreg_reserve_gpr_internal (fuel + 1) ops phase pt allowed only =
      match drreg_find_dead_or_best pt allowed only with
      | Sum.inl r0 =>
        if find_free_slot pt = MAX_SPILLS then (.outOfSlots, pt, [], none)
        else drreg_finish_reserve ops pt [] r0 (find_free_slot pt) false
      | Sum.inr (some best) =>
        if find_free_slot pt = MAX_SPILLS then (.outOfSlots, pt, [], none)
        else drreg_finish_reserve ops pt [] best (find_free_slot pt) false
      | Sum.inr none =>
        if aflags_xax_rescue_cond pt allowed then
          if find_free_slot
              (drreg_move_aflags_from_reg fuel ops phase pt true).1 =
              MAX_SPILLS then
            (.outOfSlots, (drreg_move_aflags_from_reg fuel ops phase pt true).1,
              (drreg_move_aflags_from_reg fuel ops phase pt true).2, none)
          else
            drreg_finish_reserve ops
              (drreg_move_aflags_from_reg fuel ops phase pt true).1
              (drreg_move_aflags_from_reg fuel ops phase pt true).2 XAX_IDX
              (find_free_slot
                (drreg_move_aflags_from_reg fuel ops phase pt true).1) false
        else (.regConflict, pt, [], none) := by
    conv_lhs => rw [drreg_reserve_gpr_internal]
    rw [hpend]
  rw [hunf] at hout ⊢
  rcases hfind : drreg_find_dead_or_best pt allowed only with r0 | ob
  · simp only [hfind] at hout ⊢
    by_cases hs : find_free_slot pt = MAX_SPILLS
    · rw [if_pos hs] at hout
      simp at hout
    · rw [if_neg hs] at hout ⊢
      have hr0 : r0 = r := by
        rw [finish_reserve_out] at hout
        exact Option.some.inj hout
      subst hr0
      constructor
      · intro hlive
        obtain ⟨hem, hev⟩ :=
          finish_reserve_live ops pt [] r0 (find_free_slot pt) hcons hlive
        refine ⟨?_, hev⟩
        rw [hem, finish_reserve_slot]
        simp
      · intro hdead
        obtain ⟨hem, hev, hsl⟩ :=
          finish_reserve_dead ops pt [] r0 (find_free_slot pt) hcons hdead
        refine ⟨?_, hev, ?_⟩
        · rw [hem]
          intro e he
          simp at he
        · rw [finish_reserve_slot]
          exact hsl
  · cases ob with
    | some best =>
      simp only [hfind] at hout ⊢
      by_cases hs : find_free_slot pt = MAX_SPILLS
      · rw [if_pos hs] at hout
        simp at hout
      · rw [if_neg hs] at hout ⊢
        have hr0 : best = r := by
          rw [finish_reserve_out] at hout
          exact Option.some.inj hout
        subst hr0
        constructor
        · intro hlive
          obtain ⟨hem, hev⟩ :=
            finish_reserve_live ops pt [] best (find_free_slot pt) hcons hlive
          refine ⟨?_, hev⟩
          rw [hem, finish_reserve_slot]
          simp
        · intro hdead
          obtain ⟨hem, hev, hsl⟩ :=
            finish_reserve_dead ops pt [] best (find_free_slot pt) hcons hdead
          refine ⟨?_, hev, ?_⟩
          · rw [hem]
            intro e he
            simp at he
          · rw [finish_reserve_slot]
            exact hsl
    | none =>
      simp only [hfind] at hout ⊢
      by_cases hresc : aflags_xax_rescue_cond pt allowed = true
      · rw [if_pos hresc] at hout ⊢
        have hmv : (∀ r2,
            (((drreg_move_aflags_from_reg fuel ops phase pt true).1).reg
              r2).live = (pt.reg r2).live) ∧
            (drreg_move_aflags_from_reg fuel ops phase pt true).1.live_idx =
              pt.live_idx ∧
            (∀ e ∈ (drreg_move_aflags_from_reg fuel ops phase pt true).2,
              e.isStore = false) := by
          cases fuel with
          | zero =>
            refine ⟨fun r2 => rfl, rfl, ?_⟩
            intro e he
            simp [drreg_move_aflags_from_reg] at he
          | succ f =>
            have hparts := hresc
            simp only [aflags_xax_rescue_cond, Bool.and_eq_true,
              Bool.not_eq_true', decide_eq_true_eq] at hparts
            obtain ⟨⟨⟨hin, hxu⟩, hxc⟩, hal⟩ := hparts
            obtain ⟨a, b, c, d⟩ := move_rescue_props f ops phase pt hin hxc
            exact ⟨a, b, d⟩
        obtain ⟨hml, hmi, hms⟩ := hmv
        by_cases hs : find_free_slot
            (drreg_move_aflags_from_reg fuel ops phase pt true).1 = MAX_SPILLS
        · rw [if_pos hs] at hout
          simp at hout
        · rw [if_neg hs] at hout ⊢
          have hr0 : XAX_IDX = r := by
            rw [finish_reserve_out] at hout
            exact Option.some.inj hout
          subst hr0
          constructor
          · intro hlive
            have hlive2 : (((drreg_move_aflags_from_reg fuel ops phase pt
                true).1).reg XAX_IDX).live
                (drreg_move_aflags_from_reg fuel ops phase pt true).1.live_idx =
                REG_LIVE := by
              rw [hml XAX_IDX, hmi]
              exact hlive
            obtain ⟨hem, hev⟩ :=
              finish_reserve_live ops _ _ XAX_IDX _ hcons hlive2
            refine ⟨?_, hev⟩
            rw [hem, finish_reserve_slot]
            simp
          · intro hdead
            have hdead2 : (((drreg_move_aflags_from_reg fuel ops phase pt
                true).1).reg XAX_IDX).live
                (drreg_move_aflags_from_reg fuel ops phase pt true).1.live_idx =
                REG_DEAD := by
              rw [hml XAX_IDX, hmi]
              exact hdead
            obtain ⟨hem, hev, hsl⟩ :=
              finish_reserve_dead ops _ _ XAX_IDX _ hcons hdead2
            refine ⟨?_, hev, ?_⟩
            · rw [hem]
              exact hms
            · rw [finish_reserve_slot]
              exact hsl
      · rw [if_neg hresc] at hout
        simp at hout

theorem drreg_c1_witness :
    ops0.conservative = false ∧
    drreg_pick_pending basePt none false = none ∧
    (drreg_reserve_gpr_internal 1 ops0 DrPhase.insertion basePt none
      false).2.2.2 = some 0 ∧
    (basePt.reg 0).live basePt.live_idx = REG_LIVE ∧
    (Emit.store 0
        ((drreg_reserve_gpr_internal 1 ops0 DrPhase.insertion basePt none
          false).2.1.reg 0).slot ∈
        (drreg_reserve_gpr_internal 1 ops0 DrPhase.insertion basePt none
          false).2.2.1 ∧
      ((drreg_reserve_gpr_internal 1 ops0 DrPhase.insertion basePt none
        false).2.1.reg 0).ever_spilled = true) :=
  ⟨rfl, rfl, rfl, rfl,
    (drreg_c1_reserve_spill 0 ops0 DrPhase.insertion basePt none false 0
      rfl rfl rfl).1 rfl⟩

theorem pick_pending_pos {pt : PerThread} {allowed : Option (GprIdx → Bool)}
    {only : Bool} {r : GprIdx}
    (h : drreg_pick_pending pt allowed only = some r) :
    0 < pt.pending_unreserved := by
  unfold drreg_pick_pending at h
  split at h
  · assumption
  · exact absurd h (by simp)

/-- C3 counterexample: with xbx previously reserved, spilled to slot 2 and
lazily unreserved, `drreg_reserve_dead_register` succeeds and returns xbx
without the aflags-in-accumulator rescue applying, yet xbx's entry in the
current liveness vector at the reservation point is Live, not Dead: the
pending-unreserved reuse loop accepts any ever-spilled register regardless
of its current liveness. -/
theorem drreg_c3_counterexample :
    (drreg_reserve_dead_register 1 ops0 DrPhase.insertion [] ptC3 none).1 =
      DrregStatus.success ∧
    (drreg_reserve_dead_register 1 ops0 DrPhase.insertion [] ptC3
      none).2.2.2 = some 3 ∧
    aflags_xax_rescue_cond ptC3 none = false ∧
    ¬ (ptC3.reg 3).live ptC3.live_idx = REG_DEAD := by
  refine ⟨rfl, rfl, rfl, ?_⟩
  decide

/-- C3 (amended): when `drreg_reserve_gpr_internal` with
`only_if_no_spill = true` (the `drreg_reserve_dead_register` path) returns
a register and the aflags-in-accumulator rescue did not apply, the
returned register is either Dead in the current liveness vector at the
reservation point, or it was reused from the pending-unreserved pool: it
is non-native with its `ever_spilled` flag set while unreserved registers
were pending. -/
theorem drreg_c3_amended (fuel : Nat) (ops : Ops) (phase : DrPhase)
    (pt : PerThread) (allowed : Option (GprIdx → Bool)) (r : GprIdx)
    (hout : (drreg_reserve_gpr_internal (fuel + 1) ops phase pt allowed
      true).2.2.2 = some r)
    (hresc : aflags_xax_rescue_cond pt allowed = false) :
    (pt.reg r).live pt.live_idx = REG_DEAD ∨
      ((pt.reg r).ever_spilled = true ∧ (pt.reg r).native = false ∧
        0 < pt.pending_unreserved) := by
  have hunf : drreg_reserve_gpr_internal (fuel + 1) ops phase pt allowed true =
      match drreg_pick_pending pt allowed true with
      | some r0 =>
        if (pt.reg r0).slot = MAX_SPILLS then
          if find_free_slot
              { pt with pending_unreserved := pt.pending_unreserved - 1 } =
              MAX_SPILLS then
            (.outOfSlots,
              { pt with pending_unreserved := pt.pending_unreserved - 1 },
              [], none)
          else
            drreg_finish_reserve ops
              { pt with pending_unreserved := pt.pending_unreserved - 1 } []
              r0
              (find_free_slot
                { pt with pending_unreserved := pt.pending_unreserved - 1 })
              (pt.reg r0).ever_spilled
        else
          drreg_finish_reserve ops
            { pt with pending_unreserved := pt.pending_unreserved - 1 } [] r0
            (pt.reg r0).slot (pt.reg r0).ever_spilled
      | none =>
        match drreg_find_dead_or_best pt allowed true with
        | Sum.inl r0 =>
          if find_free_slot pt = MAX_SPILLS then (.outOfSlots, pt, [], none)
          else drreg_finish_reserve ops pt [] r0 (find_free_slot pt) false
        | Sum.inr (some best) =>
          if find_free_slot pt = MAX_SPILLS then (.outOfSlots, pt, [], none)
          else drreg_finish_reserve ops pt [] best (find_free_slot pt) false
        | Sum.inr none =>
          if aflags_xax_rescue_cond pt allowed then
            if find_free_slot
                (drreg_move_aflags_from_reg fuel ops phase pt true).1 =
                MAX_SPILLS then
              (.outOfSlots,
                (drreg_move_aflags_from_reg fuel ops phase pt true).1,
                (drreg_move_aflags_from_reg fuel ops phase pt true).2, none)
            else
              drreg_finish_reserve ops
                (drreg_move_aflags_from_reg fuel ops phase pt true).1
                (drreg_move_aflags_from_reg fuel ops phase pt true).2 XAX_IDX
                (find_free_slot
                  (drreg_move_aflags_from_reg fuel ops phase pt true).1) false
          else (.regConflict, pt, [], none) := by
    conv_lhs => rw [drreg_reserve_gpr_internal]
  rw [hunf] at hout
  rcases hp : drreg_pick_pending pt allowed true with _ | r0
  · simp only [hp] at hout
    rcases hfind : drreg_find_dead_or_best pt allowed true with r0 | ob
    · simp only [hfind] at hout
      by_cases hs : find_free_slot pt = MAX_SPILLS
      · rw [if_pos hs] at hout
        simp at hout
      · rw [if_neg hs, finish_reserve_out] at hout
        obtain rfl : r0 = r := Option.some.inj hout
        left
        exact (find_loop_inl _ _ _ _ hfind).2.2.2
    · cases ob with
      | some best =>
        have hbest := find_loop_only_inr _ _ _ _ hfind
        simp at hbest
      | none =>
        simp only [hfind] at hout
        rw [if_neg (by simp [hresc])] at hout
        simp at hout
  · simp only [hp] at hout
    have hcond := pick_pending_some hp
    have hpos := pick_pending_pos hp
    simp only [pendingReuseCond, Bool.and_eq_true, Bool.not_eq_true',
      Bool.or_eq_true, decide_eq_true_eq] at hcond
    obtain ⟨⟨⟨hnat, hinuse⟩, hal⟩, hlast⟩ := hcond
    have hr0 : r0 = r := by
      by_cases hs : (pt.reg r0).slot = MAX_SPILLS
      · rw [if_pos hs] at hout
        by_cases hs2 : find_free_slot
            { pt with pending_unreserved := pt.pending_unreserved - 1 } =
            MAX_SPILLS
        · rw [if_pos hs2] at hout
          simp at hout
        · rw [if_neg hs2, finish_reserve_out] at hout
          exact Option.some.inj hout
      · rw [if_neg hs, finish_reserve_out] at hout
        exact Option.some.inj hout
    subst hr0
    rcases hlast with (hfalse | hev) | hdead
    · simp at hfalse
    · exact Or.inr ⟨hev, hnat, hpos⟩
    · exact Or.inl hdead

theorem drreg_c3_amended_witness :
    (drreg_reserve_gpr_internal 1 ops0 DrPhase.insertion ptC3 none
      true).2.2.2 = some 3 ∧
    aflags_xax_rescue_cond ptC3 none = false ∧
    ((ptC3.reg 3).live ptC3.live_idx = REG_DEAD ∨
      ((ptC3.reg 3).ever_spilled = true ∧ (ptC3.reg 3).native = false ∧
        0 < ptC3.pending_unreserved)) :=
  ⟨rfl, rfl, drreg_c3_amended 0 ops0 DrPhase.insertion ptC3 none 3 rfl rfl⟩

/-- C4 counterexample: xbx is currently reserved and the allowed set
permits only xbx, yet the second reservation attempt through
`drreg_reserve_gpr_internal` returns `DRREG_ERROR_REG_CONFLICT`, not
`DRREG_ERROR_IN_USE`: the GPR reserve path has no in-use distinction. -/
theorem drreg_c4_counterexample :
    (ptC4.reg 3).in_use = true ∧
    (∀ r : GprIdx, allowC4 r = true → r = 3) ∧
    (drreg_reserve_gpr_internal 1 ops0 DrPhase.insertion ptC4 (some allowC4)
      false).1 = DrregStatus.regConflict ∧
    DrregStatus.regConflict ≠ DrregStatus.inUse := by
  refine ⟨rfl, by decide, rfl, by decide⟩

/-- C4 (amended): reserving aflags a second time without an intervening
unreserve fails with `DRREG_ERROR_IN_USE` and changes nothing, while a GPR
reservation whose allowed set contains only currently in-use registers
fails with `DRREG_ERROR_REG_CONFLICT` (not `IN_USE`) and changes nothing,
provided the aflags-in-accumulator rescue does not apply. -/
theorem drreg_c4_amended (fuel : Nat) (ops : Ops) (insts : List Inst)
    (pt pt2 : PerThread) (alw : GprIdx → Bool) (phase : DrPhase)
    (only : Bool) :
    (pt.aflags.in_use = true →
      drreg_reserve_aflags fuel ops DrPhase.insertion insts pt =
        (.inUse, pt, [])) ∧
    ((∀ r2, alw r2 = true → (pt2.reg r2).in_use = true) →
      aflags_xax_rescue_cond pt2 (some alw) = false →
      drreg_reserve_gpr_internal (fuel + 1) ops phase pt2 (some alw) only =
        (.regConflict, pt2, [], none)) := by
  constructor
  · intro hin
    simp [drreg_reserve_aflags, hin]
  · intro hall hresc
    have hpick : drreg_pick_pending pt2 (some alw) only = none := by
      refine pick_pending_none_of ?_
      intro r
      cases halw : alw r with
      | false => simp [pendingReuseCond, allowedAt, halw]
      | true => simp [pendingReuseCond, allowedAt, halw, hall r halw]
    have hfind : drreg_find_dead_or_best pt2 (some alw) only = Sum.inr none :=
      find_loop_all_blocked hall _ none UINT_MAX
    conv_lhs => rw [drreg_reserve_gpr_internal]
    simp only [hpick, hfind]
    rw [if_neg (by simp [hresc])]

theorem drreg_c4_amended_witness :
    ptC4a.aflags.in_use = true ∧
    (∀ r2, allowC4 r2 = true → (ptC4.reg r2).in_use = true) ∧
    aflags_xax_rescue_cond ptC4 (some allowC4) = false ∧
    drreg_reserve_aflags 1 ops0 DrPhase.insertion [] ptC4a =
      (.inUse, ptC4a, []) ∧
    drreg_reserve_gpr_internal 1 ops0 DrPhase.insertion ptC4 (some allowC4)
      false = (.regConflict, ptC4, [], none) :=
  ⟨rfl, by decide, rfl,
    (drreg_c4_amended 1 ops0 [] ptC4a ptC4 allowC4 DrPhase.insertion
      false).1 rfl,
    (drreg_c4_amended 0 ops0 [] ptC4a ptC4 allowC4 DrPhase.insertion
      false).2 (by decide) rfl⟩

/-- C5: under the allocation invariants that every non-native GPR records
a slot in `[1, MAX_SPILLS)` and that an in-use xax is non-native, a call
to `drreg_reserve_gpr_internal` that fails with `OUT_OF_SLOTS` or
`REG_CONFLICT` returns the per-thread state exactly as it was and emits no
instructions. -/
theorem drreg_c5_failure_no_mutation (fuel : Nat) (ops : Ops)
    (phase : DrPhase) (pt : PerThread) (allowed : Option (GprIdx → Bool))
    (only : Bool)
    (hinv1 : ∀ r2 : GprIdx, (pt.reg r2).native = false →
      1 ≤ (pt.reg r2).slot ∧ (pt.reg r2).slot < MAX_SPILLS)
    (hinv2 : (pt.reg XAX_IDX).in_use = true →
      (pt.reg XAX_IDX).native = false)
    (hfail : (drreg_reserve_gpr_internal (fuel + 1) ops phase pt allowed
        only).1 = DrregStatus.outOfSlots ∨
      (drreg_reserve_gpr_internal (fuel + 1) ops phase pt allowed only).1 =
        DrregStatus.regConflict) :
    (drreg_reserve_gpr_internal (fuel + 1) ops phase pt allowed only).2.1 =
        pt ∧
      (drreg_reserve_gpr_internal (fuel + 1) ops phase pt allowed
        only).2.2.1 = [] := by
  have hunf : drreg_reserve_gpr_internal (fuel + 1) ops phase pt allowed only =
      match drreg_pick_pending pt allowed only with
      | some r0 =>
        if (pt.reg r0).slot = MAX_SPILLS then
          if find_free_slot
              { pt with pending_unreserved := pt.pending_unreserved - 1 } =
              MAX_SPILLS then
            (.outOfSlots,
              { pt with pending_unreserved := pt.pending_unreserved - 1 },
              [], none)
          else
            drreg_finish_reserve ops
              { pt with pending_unreserved := pt.pending_unreserved - 1 } []
              r0
              (find_free_slot
                { pt with pending_unreserved := pt.pending_unreserved - 1 })
              (pt.reg r0).ever_spilled
        else
          drreg_finish_reserve ops
            { pt with pending_unreserved := pt.pending_unreserved - 1 } [] r0
            (pt.reg r0).slot (pt.reg r0).ever_spilled
      | none =>
        match drreg_find_dead_or_best pt allowed only with
        | Sum.inl r0 =>
          if find_free_slot pt = MAX_SPILLS then (.outOfSlots, pt, [], none)
          else drreg_finish_reserve ops pt [] r0 (find_free_slot pt) false
        | Sum.inr (some best) =>
          if find_free_slot pt = MAX_SPILLS then (.outOfSlots, pt, [], none)
          else drreg_finish_reserve ops pt [] best (find_free_slot pt) false
        | Sum.inr none =>
          if aflags_xax_rescue_cond pt allowed then
            if find_free_slot
                (drreg_move_aflags_from_reg fuel ops phase pt true).1 =
                MAX_SPILLS then
              (.outOfSlots,
                (drreg_move_aflags_from_reg fuel ops phase pt true).1,
                (drreg_move_aflags_from_reg fuel ops phase pt true).2, none)
            else
              drreg_finish_reserve ops
                (drreg_move_aflags_from_reg fuel ops phase pt true).1
                (drreg_move_aflags_from_reg fuel ops phase pt true).2 XAX_IDX
                (find_free_slot
                  (drreg_move_aflags_from_reg fuel ops phase pt true).1) false
          else (.regConflict, pt, [], none) := by
    conv_lhs => rw [drreg_reserve_gpr_internal]
  rw [hunf] at hfail ⊢
  rcases hp : drreg_pick_pending pt allowed only with _ | r0
  · simp only [hp] at hfail ⊢
    rcases hfind : drreg_find_dead_or_best pt allowed only with r0 | ob
    · simp only [hfind] at hfail ⊢
      by_cases hs : find_free_slot pt = MAX_SPILLS
      · rw [if_pos hs]
        exact ⟨rfl, rfl⟩
      · rw [if_neg hs] at hfail
        rcases hfail with h | h <;> rw [finish_reserve_status] at h <;>
          simp at h
    · cases ob with
      | some best =>
        simp only [hfind] at hfail ⊢
        by_cases hs : find_free_slot pt = MAX_SPILLS
        · rw [if_pos hs]
          exact ⟨rfl, rfl⟩
        · rw [if_neg hs] at hfail
          rcases hfail with h | h <;> rw [finish_reserve_status] at h <;>
            simp at h
      | none =>
        simp only [hfind] at hfail ⊢
        by_cases hresc : aflags_xax_rescue_cond pt allowed = true
        · rw [if_pos hresc] at hfail ⊢
          cases fuel with
          | zero =>
            by_cases hs : find_free_slot
                (drreg_move_aflags_from_reg 0 ops phase pt true).1 =
                MAX_SPILLS
            · rw [if_pos hs]
              exact ⟨rfl, rfl⟩
            · rw [if_neg hs] at hfail
              rcases hfail with h | h <;> rw [finish_reserve_status] at h <;>
                simp at h
          | succ f =>
            have hparts := hresc
            simp only [aflags_xax_rescue_cond, Bool.and_eq_true,
              Bool.not_eq_true', decide_eq_true_eq] at hparts
            obtain ⟨⟨⟨hin, hxu⟩, hxc⟩, hal⟩ := hparts
            obtain ⟨hml, hmi, hsu, hms⟩ := move_rescue_props f ops phase pt hin hxc
            have hxn := hinv2 hxu
            obtain ⟨hb1, hb2⟩ := hinv1 XAX_IDX hxn
            have hs : find_free_slot
                (drreg_move_aflags_from_reg (f + 1) ops phase pt true).1 ≠
                MAX_SPILLS :=
              find_free_slot_of_free hb1 hb2 hsu
            rw [if_neg hs] at hfail
            rcases hfail with h | h <;> rw [finish_reserve_status] at h <;>
              simp at h
        · rw [if_neg hresc]
          exact ⟨rfl, rfl⟩
  · simp only [hp] at hfail ⊢
    have hcond := pick_pending_some hp
    simp only [pendingReuseCond, Bool.and_eq_true, Bool.not_eq_true',
      decide_eq_true_eq] at hcond
    obtain ⟨⟨⟨hnat, hinuse⟩, hal⟩, hlast⟩ := hcond
    obtain ⟨hb1, hb2⟩ := hinv1 r0 hnat
    have hs : (pt.reg r0).slot ≠ MAX_SPILLS := by omega
    rw [if_neg hs] at hfail
    rcases hfail with h | h <;> rw [finish_reserve_status] at h <;> simp at h

theorem drreg_c5_witness :
    (∀ r2 : GprIdx, (ptC5.reg r2).native = false →
      1 ≤ (ptC5.reg r2).slot ∧ (ptC5.reg r2).slot < MAX_SPILLS) ∧
    ((ptC5.reg XAX_IDX).in_use = true →
      (ptC5.reg XAX_IDX).native = false) ∧
    ((drreg_reserve_gpr_internal 1 ops0 DrPhase.insertion ptC5 none
        false).1 = DrregStatus.outOfSlots ∨
      (drreg_reserve_gpr_internal 1 ops0 DrPhase.insertion ptC5 none
        false).1 = DrregStatus.regConflict) ∧
    ((drreg_reserve_gpr_internal 1 ops0 DrPhase.insertion ptC5 none
        false).2.1 = ptC5 ∧
      (drreg_reserve_gpr_internal 1 ops0 DrPhase.insertion ptC5 none
        false).2.2.1 = []) :=
  ⟨by decide, by decide, Or.inr rfl,
    drreg_c5_failure_no_mutation 0 ops0 DrPhase.insertion ptC5 none false
      (by decide) (by decide) (Or.inr rfl)⟩
